import Mathlib

/-!
Verification of the ipset argument-parsing core
(`extensions/ipset-5/libipset/parse.c`).

The C sources are shallowly embedded: every parser becomes a Lean function
over an explicit session value (typed attribute store plus diagnostic
report), C strings become `List Char`, machine integers become `Nat`/`Int`
with explicit bounds, and the C `strtoull`/`strtol` library conversions are
modelled in full (base auto-detection, whitespace and sign handling, end
pointer, `ERANGE`).  External collaborators that are not part of the
repository (libc name databases, the resolver, header constants) are
modelled from the specification and marked as such.
-/

/-! ## Diagnostics

Classified failure/warning messages, mirroring the distinct `syntax_err`,
`ipset_err` and `ipset_warn` call sites of `parse.c`.  Each constructor
stands for one distinct message format string in the C source. -/

inductive Diag where
  | outOfRange (lo hi : Nat)
  | notANumber
  | cidrOutOfRange (lo hi : Nat)
  | etherBad
  | portBad
  | protoBad
  | protoUnsupported
  | typecodeBad
  | icmpInetOnly
  | icmpv6Inet6Only
  | pseudoPortOnly
  | plainAddrRequired
  | netRequired
  | rangeRequired
  | resolveFailed
  | resolveParseFailed
  | noAddressFound
  | multipleAddresses
  | mixedBeforeAfter
  | nameRefBad
  | nameTooLong
  | secondElemMissing
  | thirdElemMissing
  | oneSepSupported
  | twoSepsSupported
  | elemSepUnsupported
  | alreadySpecified
  | internalNoType
  | internalNoParseFn
  | ignoredWarn
  | allocFailed
  deriving DecidableEq, Repr

/-! ## Option kinds and stored values -/

inductive IpsetOpt where
  | ip | ipTo | ip2 | cidr | cidr2 | port | portTo | proto | ether | timeout
  | netmask | family | name | nameref | before | setname2 | typeOpt | typename
  deriving DecidableEq, Repr

/-- Enumeration of the parser functions that appear as function pointers in
the C code (type descriptors bind them per dimension, and
`ipset_call_parser` compares its argument against `ipset_parse_ignored`).
Pointer identity in C becomes constructor identity here. -/
inductive ParseFn where
  | uint32Fn | uint8Fn | flagFn | ignoredFn | setnameFn | nameCompatFn
  | singleIpFn | ipFn | etherFn | tcpPortFn
  deriving DecidableEq, Repr

/-- One slot of a type descriptor's `elem[]` array: the bound parser
function (possibly NULL) and the option kind it writes. -/
structure ElemSpec where
  parseFn : Option ParseFn
  opt : IpsetOpt
  deriving DecidableEq, Repr

/-- A registered set-type descriptor (`struct ipset_type`): name, element
dimension (1..3), per-dimension parser bindings and the optional legacy
compat parser used by `ipset_parse_elem` for 1-dimension types. -/
structure IpsetType where
  name : List Char
  dimension : Nat
  elem1 : ElemSpec
  elem2 : ElemSpec
  elem3 : ElemSpec
  compat : Option ParseFn
  deriving DecidableEq, Repr

/-- A value stored in the session data blob. -/
inductive DVal where
  | num (n : Nat)
  | str (s : List Char)
  | addr (fam : Nat) (a : Nat)
  | etherV (bytes : List Nat)
  | flagV
  | typeV (t : IpsetType)
  deriving DecidableEq, Repr

/-- Modelled from the spec: the typed attribute store of `data.c` (not
under the provided sources).  Per spec section 3/4.1 it is a map from
option kind to typed value with a parallel set-bits mask raised by every
successful `set`; the store itself performs no duplicate check (the spec
notes call sites do), and a further per-option bit backs the once-only
warning of ignored options. -/
structure IpsetData where
  vals : IpsetOpt → Option DVal
  flags : IpsetOpt → Bool
  ign : IpsetOpt → Bool

/-- Modelled from the spec: the session object of `session.c` (not under
the provided sources) as seen by the parsers: the attribute store plus the
session-level diagnostic log to which `ipset_err`, `syntax_err` and
`ipset_warn` append (most recent first). -/
structure Session where
  data : IpsetData
  report : List Diag

def emptyData : IpsetData :=
  { vals := fun _ => none, flags := fun _ => false, ign := fun _ => false }

def emptySession : Session := { data := emptyData, report := [] }

/-- Append a diagnostic to the session report (`ipset_err` / `syntax_err`
/ `ipset_warn` all do this; the two error forms additionally return -1). -/
def Session.record (s : Session) (d : Diag) : Session :=
  { s with report := d :: s.report }

/-- `syntax_err(...)`: record the classified message and return -1. -/
def synErr (s : Session) (d : Diag) : Int × Session := (-1, s.record d)

/-- `ipset_data_set` / `ipset_session_data_set`: store the value and raise
the option's set-bit; returns 0 (modelled from the spec: the store performs
no duplicate detection itself). -/
def IpsetData.setVal (dt : IpsetData) (o : IpsetOpt) (v : DVal) : IpsetData :=
  { dt with
    vals := fun x => if x = o then some v else dt.vals x,
    flags := fun x => if x = o then true else dt.flags x }

def Session.dataSet (s : Session) (o : IpsetOpt) (v : DVal) : Session :=
  { s with data := s.data.setVal o v }

/-- `ipset_data_flags_set(data, IPSET_FLAG(opt))`: raise the set-bit only. -/
def Session.flagOn (s : Session) (o : IpsetOpt) : Session :=
  { s with data := { s.data with flags := fun x => if x = o then true else s.data.flags x } }

/-- `ipset_data_flags_test(data, IPSET_FLAG(opt))`. -/
def Session.flagTest (s : Session) (o : IpsetOpt) : Bool := s.data.flags o

/-- `ipset_session_report_reset`: drop all queued diagnostics. -/
def Session.reportReset (s : Session) : Session := { s with report := [] }

/-- Address families as Linux `AF_UNSPEC` / `AF_INET` / `AF_INET6`. -/
def AF_UNSPEC : Nat := 0
def AF_INET : Nat := 2
def AF_INET6 : Nat := 10

/-- `ipset_data_family`: the stored family value, `AF_UNSPEC` if unset. -/
def Session.familyOf (s : Session) : Nat :=
  match s.data.vals IpsetOpt.family with
  | some (DVal.num f) => f
  | _ => AF_UNSPEC

/-! ## Separator tokenizer (`ipset_strchr`) -/

/-- Index of the first occurrence of `c` in `str` (the `strchr` call). -/
def strchrIdx : List Char → Char → Option Nat
  | [], _ => none
  | a :: rest, c =>
    if a = c then some 0 else (strchrIdx rest c).map (· + 1)

/-- `ipset_strchr(str, sep)`: scan the separator characters in order and
return the first `strchr` hit whose character is neither the first nor the
last character of `str`. -/
def ipset_strchr (str : List Char) (sep : List Char) : Option Nat :=
  match sep with
  | [] => none
  | c :: rest =>
    match strchrIdx str c with
    | some i =>
      if str.head? ≠ some c ∧ str.getLast? ≠ some c then some i
      else ipset_strchr str rest
    | none => ipset_strchr str rest

/-- Modelled from the spec: the separator characters (`IPSET_CIDR_SEPARATOR`
and friends are defined in a header that is not among the provided sources;
the spec fixes them as the CIDR-style slash, the dash range separator, the
comma element separator and the colon protocol separator). -/
def cidrSepChars : List Char := ['/']

def rangeSepChars : List Char := ['-']

def elemSepChars : List Char := [',']

def protoSepChars : List Char := [':']

/-- Split `s` at the separator position found by `ipset_strchr` (the C code
writes a NUL over the separator and keeps two pointers). -/
def sepSplit (sepChars : List Char) (s : List Char) :
    Option (List Char × List Char) :=
  match ipset_strchr s sepChars with
  | some i => some (s.take i, s.drop (i + 1))
  | none => none

def cidrSplit (s : List Char) : Option (List Char × List Char) :=
  sepSplit cidrSepChars s

def rangeSplit (s : List Char) : Option (List Char × List Char) :=
  sepSplit rangeSepChars s

def elemSplit (s : List Char) : Option (List Char × List Char) :=
  sepSplit elemSepChars s

def protoSplit (s : List Char) : Option (List Char × List Char) :=
  sepSplit protoSepChars s

/-! ## Numeric conversion (`strtoull` with base auto-detection) -/

/-- Hexadecimal digit value of a character, if any. -/
def digitVal (c : Char) : Option Nat :=
  if '0' ≤ c ∧ c ≤ '9' then some (c.toNat - '0'.toNat)
  else if 'a' ≤ c ∧ c ≤ 'f' then some (c.toNat - 'a'.toNat + 10)
  else if 'A' ≤ c ∧ c ≤ 'F' then some (c.toNat - 'A'.toNat + 10)
  else none

/-- Is `c` a digit of the given base? -/
def isBaseDigit (base : Nat) (c : Char) : Bool :=
  match digitVal c with
  | some d => decide (d < base)
  | none => false

/-- C `isspace` for the default locale. -/
def isSpaceC (c : Char) : Bool :=
  c = ' ' || c = '\t' || c = '\n' || c = '\x0b' || c = '\x0c' || c = '\r'

/-- Greedily consume digits of `base`, starting from accumulator `acc`;
returns the accumulated (exact, unclamped) value and the number of digit
characters consumed. -/
def parseDigits (base : Nat) : List Char → Nat → Nat × Nat
  | [], acc => (acc, 0)
  | c :: rest, acc =>
    if isBaseDigit base c then
      let r := parseDigits base rest (acc * base + (digitVal c).getD 0)
      (r.1, r.2 + 1)
    else (acc, 0)

def ULLONG_MAX : Nat := 2 ^ 64 - 1

/-- Result of a `strtoull` call: the returned value (clamped with `ERANGE`
on overflow), the number of characters consumed (`end - str`) and the
`ERANGE` flag. -/
structure CULL where
  value : Nat
  len : Nat
  erange : Bool
  deriving DecidableEq, Repr

/-- The `0x`/`0X` prefix test of `strtoull`/`strtol` base detection: the
prefix counts only when a hexadecimal digit follows it. -/
def hexPrefixOK (r2 : List Char) : Bool :=
  decide (r2.get? 0 = some '0') &&
    (decide (r2.get? 1 = some 'x') || decide (r2.get? 1 = some 'X')) &&
    (r2.get? 2).elim false (fun d => isBaseDigit 16 d)

/-- `strtoull(str, &end, 0)`: optional whitespace, optional sign, base
auto-detection (`0x` prefix is hexadecimal when a hex digit follows, a
leading `0` selects octal, otherwise decimal), greedy digits; no digits
means no conversion (`end == str`). -/
def strtoull0 (cs : List Char) : CULL :=
  let ws := (cs.takeWhile isSpaceC).length
  let r1 := cs.dropWhile isSpaceC
  let hasSign : Bool := r1.head? = some '-' || r1.head? = some '+'
  let neg : Bool := r1.head? = some '-'
  let r2 := if hasSign then r1.tail else r1
  let hexPre : Bool := hexPrefixOK r2
  let bp : Nat × Nat × List Char :=
    if hexPre then (16, 2, r2.drop 2)
    else if r2.head? = some '0' then (8, 0, r2)
    else (10, 0, r2)
  let pd := parseDigits bp.1 bp.2.2 0
  if pd.2 = 0 then { value := 0, len := 0, erange := false }
  else
    let m := pd.1
    if m > ULLONG_MAX then
      { value := ULLONG_MAX, len := ws + (if hasSign then 1 else 0) + bp.2.1 + pd.2,
        erange := true }
    else
      { value := if neg then (2 ^ 64 - m % 2 ^ 64) % 2 ^ 64 else m,
        len := ws + (if hasSign then 1 else 0) + bp.2.1 + pd.2, erange := false }

/-- `string_to_number_ll(session, str, min, max, ret)`: accept a fully
consumed, non-overflowing conversion inside the inclusive bounds (a `max`
of 0 means unbounded); otherwise report an out-of-range error (with the
effective bound) when `errno == ERANGE`, and a syntax error otherwise.
Returned pure, as the classified result; session threading is done by the
callers via `runNum`. -/
def string_to_number_ll (str : List Char) (mn mx : Nat) : Except Diag Nat :=
  let r := strtoull0 str
  if r.len = str.length ∧ str.length ≠ 0 ∧ r.erange = false then
    if mn ≤ r.value ∧ (mx = 0 ∨ r.value ≤ mx) then Except.ok r.value
    else if mx ≠ 0 then Except.error (Diag.outOfRange mn mx)
    else Except.error (Diag.outOfRange mn ULLONG_MAX)
  else if r.erange then
    if mx ≠ 0 then Except.error (Diag.outOfRange mn mx)
    else Except.error (Diag.outOfRange mn ULLONG_MAX)
  else Except.error Diag.notANumber

/-- Thread a pure numeric result through the session: on failure the
diagnostic is recorded (as `syntax_err` does) and -1 returned; the numeric
out-value defaults to 0 as in the C callers' initialisation. -/
def runNum (s : Session) (r : Except Diag Nat) : Int × Nat × Session :=
  match r with
  | Except.ok v => (0, v, s)
  | Except.error d => (-1, 0, s.record d)

/-- `string_to_u8`. -/
def string_to_u8 (str : List Char) : Except Diag Nat :=
  string_to_number_ll str 0 255

/-- `string_to_u16` (`USHRT_MAX`). -/
def string_to_u16 (str : List Char) : Except Diag Nat :=
  string_to_number_ll str 0 65535

/-- `string_to_u32` (`UINT_MAX`). -/
def string_to_u32 (str : List Char) : Except Diag Nat :=
  string_to_number_ll str 0 4294967295

/-- `string_to_cidr`: a `u8` parse re-checked against `[min, max]`. -/
def string_to_cidr (str : List Char) (mn mx : Nat) : Except Diag Nat :=
  match string_to_u8 str with
  | Except.ok v =>
    if v < mn ∨ v > mx then Except.error (Diag.outOfRange mn mx)
    else Except.ok v
  | Except.error d => Except.error d

/-! ## Hardware (Ethernet) address parser -/

/-- `strtol(str, &end, 16)`: optional whitespace, optional sign, optional
`0x`/`0X` prefix (only when a hex digit follows), greedy hex digits;
returns the (sign-applied, `long`-clamped) value and the number of
characters consumed. -/
def strtol16 (cs : List Char) : Int × Nat :=
  let ws := (cs.takeWhile isSpaceC).length
  let r1 := cs.dropWhile isSpaceC
  let hasSign : Bool := r1.head? = some '-' || r1.head? = some '+'
  let neg : Bool := r1.head? = some '-'
  let r2 := if hasSign then r1.tail else r1
  let hexPre : Bool := hexPrefixOK r2
  let bp : Nat × List Char := if hexPre then (2, r2.drop 2) else (0, r2)
  let pd := parseDigits 16 bp.2 0
  if pd.2 = 0 then (0, 0)
  else
    let m := pd.1
    let v : Int :=
      if neg then
        if m > 2 ^ 63 then -(2 ^ 63 : Int) else -(m : Int)
      else
        if m > 2 ^ 63 - 1 then ((2 ^ 63 - 1 : Nat) : Int) else (m : Int)
    (v, ws + (if hasSign then 1 else 0) + bp.1 + pd.2)

/-- The per-octet loop of `ipset_parse_ether`, iteration `i` (with `k`
iterations remaining out of `ETH_ALEN = 6`): `strtol` at `str + i*3` must
consume exactly two characters, stop at a `:` or at the terminating NUL,
and yield a value in 0..255. -/
def ethGo (str : List Char) : Nat → Nat → Option (List Nat)
  | _, 0 => some []
  | i, k + 1 =>
    let suf := str.drop (i * 3)
    let r := strtol16 suf
    if r.2 = 2 ∧ ((suf.drop 2).head? = some ':' ∨ suf.drop 2 = []) ∧
        0 ≤ r.1 ∧ r.1 ≤ 255 then
      (ethGo str (i + 1) k).map (fun bs => r.1.toNat :: bs)
    else none

/-- `ipset_parse_ether`: the string must have length `ETH_ALEN * 3 - 1 = 17`
and each of the six octet positions must pass the `strtol` check; the six
bytes are stored under the option, otherwise a syntax error is reported. -/
def ipset_parse_ether (s : Session) (opt : IpsetOpt) (str : List Char) :
    Int × Session :=
  if str.length ≠ 17 then synErr s Diag.etherBad
  else
    match ethGo str 0 6 with
    | some bs => (0, s.dataSet opt (DVal.etherV bs))
    | none => synErr s Diag.etherBad

/-! ## Port and protocol parsers -/

/-- Modelled from the spec: the protocol/service name database behind
`getservbyname` (an external collaborator per spec section 6), as a fixed
table of (service name, protocol name, port). -/
def servTable : List (List Char × List Char × Nat) :=
  [("http".data, "TCP".data, 80), ("ssh".data, "TCP".data, 22),
   ("domain".data, "UDP".data, 53)]

/-- `getservbyname(str, proto)` against the modelled table. -/
def getservbyname (str proto : List Char) : Option Nat :=
  (servTable.find? (fun e => e.1 = str ∧ e.2.1 = proto)).map (fun e => e.2.2)

/-- `parse_portname`: service lookup; reports a syntax error on failure. -/
def parse_portname (s : Session) (str proto : List Char) :
    Int × Nat × Session :=
  match getservbyname str proto with
  | some p => (0, p, s)
  | none => (-1, 0, (s.record Diag.portBad))

/-- `ipset_parse_port`: numeric `u16` first, then service-name fallback;
on success the value is stored and all previously queued (false) error
messages are reset. -/
def ipset_parse_port (s : Session) (opt : IpsetOpt) (str proto : List Char) :
    Int × Session :=
  let n := runNum s (string_to_u16 str)
  if n.1 = 0 then
    (0, ((n.2.2.dataSet opt (DVal.num n.2.1)).reportReset))
  else
    let pn := parse_portname n.2.2 str proto
    if pn.1 = 0 then
      (0, ((pn.2.2.dataSet opt (DVal.num pn.2.1)).reportReset))
    else (pn.1, pn.2.2)

/-- `ipset_parse_tcpudp_port`: an optional dash-separated range; the part
after the dash is parsed and stored first under `IPSET_OPT_PORT_TO`, then
the part before it under `opt`. -/
def ipset_parse_tcpudp_port (s : Session) (opt : IpsetOpt)
    (str proto : List Char) : Int × Session :=
  match rangeSplit str with
  | some (tp, rest) =>
    let r1 := ipset_parse_port s IpsetOpt.portTo rest proto
    if r1.1 ≠ 0 then r1
    else ipset_parse_port r1.2 opt tp proto
  | none => ipset_parse_port s opt str proto

/-- `ipset_parse_tcp_port`. -/
def ipset_parse_tcp_port (s : Session) (opt : IpsetOpt) (str : List Char) :
    Int × Session :=
  ipset_parse_tcpudp_port s opt str "TCP".data

/-- Modelled from the spec: the protocol name database behind
`getprotobyname` (an external collaborator per spec section 6). -/
def protoTable : List (List Char × Nat) :=
  [("tcp".data, 6), ("udp".data, 17), ("icmp".data, 1),
   ("ipv6-icmp".data, 58), ("gre".data, 47), ("ip".data, 0)]

def getprotobyname (str : List Char) : Option Nat :=
  (protoTable.find? (fun e => e.1 = str)).map (fun e => e.2)

/-- C `tolower` on ASCII, for the `strcasecmp(str, "icmpv6")` call. -/
def lowerC (c : Char) : Char :=
  if 'A' ≤ c ∧ c ≤ 'Z' then Char.ofNat (c.toNat + 32) else c

/-- `ipset_parse_proto`: name lookup (`icmpv6` is aliased to `ipv6-icmp`),
rejecting unknown names and protocol number 0. -/
def ipset_parse_proto (s : Session) (opt : IpsetOpt) (str : List Char) :
    Int × Session :=
  let key := if str.map lowerC = "icmpv6".data then "ipv6-icmp".data else str
  match getprotobyname key with
  | none => synErr s Diag.protoBad
  | some 0 => synErr s Diag.protoUnsupported
  | some p => (0, s.dataSet opt (DVal.num p))

/-! ## ICMP / ICMPv6 type-code parsers -/

/-- `parse_icmp_typecode`: split on the CIDR separator, parse the part
after it as the type and the part before it as the code (each a `u8`) and
store `(type << 8) | code`. -/
def parse_icmp_typecode (s : Session) (opt : IpsetOpt) (str : List Char) :
    Int × Session :=
  match cidrSplit str with
  | none => (-1, s.record Diag.typecodeBad)
  | some (code_s, type_s) =>
    let rt := runNum s (string_to_u8 type_s)
    if rt.1 ≠ 0 then (rt.1, rt.2.2)
    else
      let rc := runNum rt.2.2 (string_to_u8 code_s)
      if rc.1 ≠ 0 then (rc.1, rc.2.2)
      else (0, rc.2.2.dataSet opt (DVal.num (rt.2.1 * 256 + rc.2.1)))

/-- Modelled from the spec: the fixed ICMP name table behind
`name_to_icmp` (`icmp.c` is not among the provided sources). -/
def icmpTable : List (List Char × Nat) :=
  [("echo-reply".data, 0), ("echo-request".data, 8 * 256),
   ("port-unreachable".data, 3 * 256 + 3)]

/-- Modelled from the spec: the fixed ICMPv6 name table behind
`name_to_icmpv6` (`icmpv6.c` is not among the provided sources). -/
def icmpv6Table : List (List Char × Nat) :=
  [("echo-reply".data, 129 * 256), ("echo-request".data, 128 * 256)]

def name_to_icmp (str : List Char) : Option Nat :=
  (icmpTable.find? (fun e => e.1 = str)).map (fun e => e.2)

def name_to_icmpv6 (str : List Char) : Option Nat :=
  (icmpv6Table.find? (fun e => e.1 = str)).map (fun e => e.2)

/-- `ipset_parse_icmp`. -/
def ipset_parse_icmp (s : Session) (opt : IpsetOpt) (str : List Char) :
    Int × Session :=
  match name_to_icmp str with
  | some tc => (0, s.dataSet opt (DVal.num tc))
  | none => parse_icmp_typecode s opt str

/-- `ipset_parse_icmpv6`. -/
def ipset_parse_icmpv6 (s : Session) (opt : IpsetOpt) (str : List Char) :
    Int × Session :=
  match name_to_icmpv6 str with
  | some tc => (0, s.dataSet opt (DVal.num tc))
  | none => parse_icmp_typecode s opt str

/-! ## Combined protocol and port parser -/

/-- The protocol value stored in the session, as read back by
`ipset_data_get(data, IPSET_OPT_PROTO)` after a successful protocol
parse. -/
def Session.protoOf (s : Session) : Nat :=
  match s.data.vals IpsetOpt.proto with
  | some (DVal.num p) => p
  | _ => 0

/-- `ipset_parse_proto_port`: optional `proto:port`.  Without a colon the
protocol defaults to TCP and the rest is a TCP/UDP port (range).  With a
colon, the protocol is parsed and stored first; TCP/UDP delegate to the
port parser, ICMP/ICMPv6 delegate to the type/code parser after a family
check, and any other protocol accepts only the literal pseudo port "0".
Note that on the family-mismatch and bad-pseudo-port paths the C code
discards the `syntax_err` value and executes `goto error` while `err` is
still 0, so the reported failure is paired with a 0 return. -/
def ipset_parse_proto_port (s : Session) (opt : IpsetOpt) (str : List Char) :
    Int × Session :=
  match protoSplit str with
  | some (pr, a) =>
    let family := s.familyOf
    let r := ipset_parse_proto s IpsetOpt.proto pr
    if r.1 ≠ 0 then r
    else
      let s1 := r.2
      let p := s1.protoOf
      if p = 6 ∨ p = 17 then ipset_parse_tcpudp_port s1 opt a pr
      else if p = 1 then
        if family ≠ AF_INET then (0, s1.record Diag.icmpInetOnly)
        else ipset_parse_icmp s1 opt a
      else if p = 58 then
        if family ≠ AF_INET6 then (0, s1.record Diag.icmpv6Inet6Only)
        else ipset_parse_icmpv6 s1 opt a
      else
        if a ≠ "0".data then (0, s1.record Diag.pseudoPortOnly)
        else (0, s1.flagOn opt)
  | none =>
    let s1 := s.dataSet IpsetOpt.proto (DVal.num 6)
    ipset_parse_tcpudp_port s1 opt str "TCP".data

/-! ## Address / network / range parsers -/

/-- The name-resolution collaborator (`getaddrinfo`): for a string and a
requested family, either a hard resolver failure (`none`) or a list of
(family, address) results.  Modelled from the spec (section 6 collaborator
contract: zero or more addresses for a hostname). -/
def Resolver : Type := List Char → Nat → Option (List (Nat × Nat))

/-- `get_addrinfo`: run the resolver, store the first address of the
requested family under `opt`, warn when several match, fail when none
does.  Returns `EINVAL` (22) when the resolver call itself failed. -/
def get_addrinfo (R : Resolver) (s : Session) (opt : IpsetOpt)
    (str : List Char) (family : Nat) : Int × Session :=
  match R str family with
  | none => (22, ((s.record Diag.resolveFailed).record Diag.resolveParseFailed))
  | some lst =>
    match lst.filter (fun p => p.1 = family) with
    | [] => (-1, s.record Diag.noAddressFound)
    | x :: rest =>
      let s1 := s.dataSet opt (DVal.addr x.1 x.2)
      if rest.isEmpty then (0, s1) else (0, s1.record Diag.multipleAddresses)

/-- `parse_ipaddr`: classify as `IP/mask`, `IP-IP` or plain address and
resolve; a CIDR suffix is parsed against the family bound and stored under
the paired CIDR option before the address is resolved.  The `out:` epilogue
turns only the resolver-hard-failure code `EINVAL` into a -1 return. -/
def parse_ipaddr (R : Resolver) (s : Session) (opt : IpsetOpt)
    (str : List Char) (family : Nat) : Int × Session :=
  let m := if family = AF_INET then 32 else 128
  let copt := if opt = IpsetOpt.ip then IpsetOpt.cidr else IpsetOpt.cidr2
  match cidrSplit str with
  | some (t, rest) =>
    let rc := runNum s (string_to_cidr rest 0 m)
    if rc.1 ≠ 0 then (-1, rc.2.2)
    else
      let s1 := rc.2.2.dataSet copt (DVal.num rc.2.1)
      let g := get_addrinfo R s1 opt t family
      (if g.1 = 22 then -1 else 0, g.2)
  | none =>
    match rangeSplit str with
    | some (t, rest) =>
      let g := get_addrinfo R s opt t family
      if g.1 ≠ 0 then (if g.1 = 22 then -1 else 0, g.2)
      else
        let g2 := get_addrinfo R g.2 IpsetOpt.ipTo rest family
        (if g2.1 = 22 then -1 else 0, g2.2)
    | none =>
      let g := get_addrinfo R s opt str family
      (if g.1 = 22 then -1 else 0, g.2)

inductive IpaddrType where
  | anyA | plainA | netA | rangeA
  deriving DecidableEq, Repr

/-- `cidr_hostaddr`: does the CIDR suffix read exactly `/32` (v4) or
`/128` (v6)? -/
def cidr_hostaddr (str : List Char) (family : Nat) : Bool :=
  match ipset_strchr str cidrSepChars with
  | some i => str.drop i = (if family = AF_INET then "/32".data else "/128".data)
  | none => false

/-- `parse_ip`: default the family to INET when unspecified, apply the
variant's separator pre-check, then delegate to `parse_ipaddr`. -/
def parse_ip (R : Resolver) (s : Session) (opt : IpsetOpt) (str : List Char)
    (ty : IpaddrType) : Int × Session :=
  let fam0 := s.familyOf
  let fs : Nat × Session :=
    if fam0 = AF_UNSPEC then (AF_INET, s.dataSet IpsetOpt.family (DVal.num AF_INET))
    else (fam0, s)
  let family := fs.1
  let s1 := fs.2
  match ty with
  | IpaddrType.plainA =>
    if (ipset_strchr str rangeSepChars).isSome ∨
        ((ipset_strchr str cidrSepChars).isSome ∧ ¬cidr_hostaddr str family) then
      synErr s1 Diag.plainAddrRequired
    else parse_ipaddr R s1 opt str family
  | IpaddrType.netA =>
    if ¬(ipset_strchr str cidrSepChars).isSome ∨
        (ipset_strchr str rangeSepChars).isSome then
      synErr s1 Diag.netRequired
    else parse_ipaddr R s1 opt str family
  | IpaddrType.rangeA =>
    if ¬(ipset_strchr str rangeSepChars).isSome ∨
        (ipset_strchr str cidrSepChars).isSome then
      synErr s1 Diag.rangeRequired
    else parse_ipaddr R s1 opt str family
  | IpaddrType.anyA => parse_ipaddr R s1 opt str family

/-- `ipset_parse_ip` (address, range or netblock). -/
def ipset_parse_ip (R : Resolver) (s : Session) (opt : IpsetOpt)
    (str : List Char) : Int × Session :=
  parse_ip R s opt str IpaddrType.anyA

/-- `ipset_parse_single_ip` (plain address required). -/
def ipset_parse_single_ip (R : Resolver) (s : Session) (opt : IpsetOpt)
    (str : List Char) : Int × Session :=
  parse_ip R s opt str IpaddrType.plainA

/-! ## Set names and remaining field parsers -/

/-- Modelled from the spec: `IPSET_MAXNAMELEN` (32, from the kernel ABI
header that is not among the provided sources; the spec only fixes "a
fixed limit"). -/
def maxNameLen : Nat := 32

/-- The `check_setname` macro succeeds iff the length is strictly below
`IPSET_MAXNAMELEN`. -/
def check_setname_ok (str : List Char) : Bool :=
  decide (str.length ≤ maxNameLen - 1)

/-- `ipset_parse_setname`. -/
def ipset_parse_setname (s : Session) (opt : IpsetOpt) (str : List Char) :
    Int × Session :=
  if ¬ check_setname_ok str then synErr s Diag.nameTooLong
  else (0, s.dataSet opt (DVal.str str))

/-- `ipset_parse_name_compat`: a plain setname, or
`setname,before|after,setname`.  The second field must be literally
`before` or `after` and the third must be present; the name is stored
first, then the reference name, then (for `before`) the marker. -/
def ipset_parse_name_compat (s : Session) (opt : IpsetOpt) (str : List Char) :
    Int × Session :=
  let s0 := if s.flagTest IpsetOpt.nameref then s.record Diag.mixedBeforeAfter else s
  match elemSplit str with
  | some (t1, rest) =>
    let ab : List Char × Option (List Char) :=
      match elemSplit rest with
      | some (t2, rest2) => (t2, some rest2)
      | none => (rest, none)
    match ab.2 with
    | none => (-1, s0.record Diag.nameRefBad)
    | some b =>
      if ¬(ab.1 = "before".data ∨ ab.1 = "after".data) then
        (-1, s0.record Diag.nameRefBad)
      else
        if ¬ check_setname_ok t1 then synErr s0 Diag.nameTooLong
        else
          let s1 := s0.dataSet opt (DVal.str t1)
          if ¬ check_setname_ok b then synErr s1 Diag.nameTooLong
          else
            let s2 := s1.dataSet IpsetOpt.nameref (DVal.str b)
            if ab.1 = "before".data then (0, s2.dataSet IpsetOpt.before (DVal.num 1))
            else (0, s2)
  | none =>
    if ¬ check_setname_ok str then synErr s0 Diag.nameTooLong
    else (0, s0.dataSet opt (DVal.str str))

/-- `ipset_parse_uint32`. -/
def ipset_parse_uint32 (s : Session) (opt : IpsetOpt) (str : List Char) :
    Int × Session :=
  let r := runNum s (string_to_u32 str)
  if r.1 = 0 then (0, r.2.2.dataSet opt (DVal.num r.2.1)) else (r.1, r.2.2)

/-- `ipset_parse_uint8`. -/
def ipset_parse_uint8 (s : Session) (opt : IpsetOpt) (str : List Char) :
    Int × Session :=
  let r := runNum s (string_to_u8 str)
  if r.1 = 0 then (0, r.2.2.dataSet opt (DVal.num r.2.1)) else (r.1, r.2.2)

/-- `ipset_parse_flag`: store a presence-only marker, ignoring the
string. -/
def ipset_parse_flag (s : Session) (opt : IpsetOpt) : Int × Session :=
  (0, s.dataSet opt DVal.flagV)

/-- Raise the per-option ignored bit. -/
def Session.ignOn (s : Session) (o : IpsetOpt) : Session :=
  { s with data := { s.data with ign := fun x => if x = o then true else s.data.ign x } }

/-- `ipset_parse_ignored`: always succeeds, warning only the first time an
option kind is ignored within the session. -/
def ipset_parse_ignored (s : Session) (opt : IpsetOpt) (_str : List Char) :
    Int × Session :=
  if s.data.ign opt then (0, s.ignOn opt)
  else (0, (s.ignOn opt).record Diag.ignoredWarn)

/-! ## Parser dispatch -/

/-- Dereference a `ParseFn` (C function pointer) to its embedding. -/
def applyParseFn (R : Resolver) :
    ParseFn → Session → IpsetOpt → List Char → Int × Session
  | ParseFn.uint32Fn => ipset_parse_uint32
  | ParseFn.uint8Fn => ipset_parse_uint8
  | ParseFn.flagFn => fun s o _ => ipset_parse_flag s o
  | ParseFn.ignoredFn => ipset_parse_ignored
  | ParseFn.setnameFn => ipset_parse_setname
  | ParseFn.nameCompatFn => ipset_parse_name_compat
  | ParseFn.singleIpFn => fun s o str => ipset_parse_single_ip R s o str
  | ParseFn.ipFn => fun s o str => ipset_parse_ip R s o str
  | ParseFn.etherFn => ipset_parse_ether
  | ParseFn.tcpPortFn => ipset_parse_tcp_port

/-- `ipset_call_parser` (C name; suffixed differently here): when the
option's set-bit is already raised, a duplicate-option syntax error is
reported — and, with no early return in the C source, the parser function
is invoked regardless, its result becoming the call's result. -/
def ipset_call_parsefn (R : Resolver) (s : Session) (pf : ParseFn)
    (optstr : List Char) (opt : IpsetOpt) (str : List Char) : Int × Session :=
  let s1 := if s.flagTest opt then s.record Diag.alreadySpecified else s
  applyParseFn R pf s1 opt (if pf = ParseFn.ignoredFn then optstr else str)

/-! ## Element dispatcher (`ipset_parse_elem`) -/

/-- The active type descriptor, previously stored under
`IPSET_OPT_TYPE`. -/
def Session.typeOf (s : Session) : Option IpsetType :=
  match s.data.vals IpsetOpt.typeOpt with
  | some (DVal.typeV t) => some t
  | _ => none

/-- The `parse_elem` helper macro: missing parser function is an internal
error, otherwise the bound parser runs on the positional field. -/
def parseElemPart (R : Resolver) (s : Session) (es : ElemSpec)
    (part : List Char) : Int × Session :=
  match es.parseFn with
  | none => (-1, s.record Diag.internalNoParseFn)
  | some pf => applyParseFn R pf s es.opt part

/-- Run the positional field parsers in order, aborting on the first
failure. -/
def elemParseAll (R : Resolver) (s : Session) (ty : IpsetType)
    (t1 : List Char) (a b : Option (List Char)) : Int × Session :=
  let r1 := parseElemPart R s ty.elem1 t1
  if r1.1 ≠ 0 then r1
  else
    match a with
    | some a2 =>
      if ty.dimension > 1 then
        let r2 := parseElemPart R r1.2 ty.elem2 a2
        if r2.1 ≠ 0 then r2
        else
          match b with
          | some b2 => if ty.dimension > 2 then parseElemPart R r2.2 ty.elem3 b2 else r2
          | none => r2
      else r1
    | none => r1

/-- Second half of `ipset_parse_elem`, after the first separator has been
handled: locate the second separator in the remainder, enforce the
dimension bound and the missing/extra element rules, then parse the
fields. -/
def ipset_parse_elem_go (R : Resolver) (s : Session) (ty : IpsetType)
    (optional : Bool) (t1 : List Char) (rest : Option (List Char)) :
    Int × Session :=
  match rest.bind elemSplit with
  | some (t2, rest2) =>
    if ty.dimension > 2 then
      if (ipset_strchr rest2 elemSepChars).isSome then
        synErr s Diag.twoSepsSupported
      else elemParseAll R s ty t1 (some t2) (some rest2)
    else synErr s Diag.oneSepSupported
  | none =>
    if ty.dimension > 2 ∧ ¬optional then synErr s Diag.thirdElemMissing
    else elemParseAll R s ty t1 rest none

/-- `ipset_parse_elem`: resolve the active type descriptor, split the
element string on the element separator according to the declared
dimension (delegating to the legacy compat parser when a 1-dimension type
is given a composite string), and parse each positional field in order. -/
def ipset_parse_elem (R : Resolver) (s : Session) (optional : Bool)
    (str : List Char) : Int × Session :=
  match s.typeOf with
  | none => (-1, s.record Diag.internalNoType)
  | some ty =>
    match elemSplit str with
    | some (t1, rest) =>
      if ty.dimension > 1 then
        ipset_parse_elem_go R s ty optional t1 (some rest)
      else
        match ty.compat with
        | some cp => applyParseFn R cp s ty.elem1.opt str
        | none => synErr s Diag.elemSepUnsupported
    | none =>
      if ty.dimension > 1 ∧ ¬optional then synErr s Diag.secondElemMissing
      else ipset_parse_elem_go R s ty optional str none

/-! ## Facts about the tokenizer -/

/-- A `strchrIdx` hit is a first occurrence: the character is at the
returned index and nowhere before it. -/
theorem strchrIdx_spec (s : List Char) (c : Char) (i : Nat)
    (h : strchrIdx s c = some i) :
    i < s.length ∧ s.get? i = some c ∧ ∀ j, j < i → s.get? j ≠ some c := by
  induction s generalizing i with
  | nil => simp [strchrIdx] at h
  | cons a rest ih =>
    by_cases hac : a = c
    · simp only [strchrIdx, if_pos hac, Option.some.injEq] at h
      subst h
      exact ⟨by simp, by simp [hac], fun j hj => absurd hj (Nat.not_lt_zero j)⟩
    · simp only [strchrIdx, if_neg hac, Option.map_eq_some'] at h
      obtain ⟨i', hi', rfl⟩ := h
      obtain ⟨h1, h2, h3⟩ := ih i' hi'
      refine ⟨by simpa using h1, by simpa using h2, ?_⟩
      intro j hj
      cases j with
      | zero => simpa using hac
      | succ j' => simpa using h3 j' (by omega)

/-- `strchr` misses exactly when the character is absent. -/
theorem strchrIdx_eq_none (s : List Char) (c : Char) (h : c ∉ s) :
    strchrIdx s c = none := by
  induction s with
  | nil => rfl
  | cons a rest ih =>
    have hac : ¬ a = c := by
      rintro rfl
      exact h (List.mem_cons_self a rest)
    simp [strchrIdx, if_neg hac, ih (fun hm => h (List.mem_cons_of_mem a hm))]

/-- First occurrence through an append whose left part avoids `c`. -/
theorem strchrIdx_append (xs ys : List Char) (c : Char) (h : c ∉ xs) :
    strchrIdx (xs ++ c :: ys) c = some xs.length := by
  induction xs with
  | nil => simp [strchrIdx]
  | cons a rest ih =>
    have hac : ¬ a = c := by
      rintro rfl
      exact h (List.mem_cons_self a rest)
    simp only [List.cons_append, strchrIdx, if_neg hac, Option.map_eq_some',
      List.length_cons]
    exact ⟨rest.length, ih (fun hm => h (List.mem_cons_of_mem a hm)), rfl⟩

/-- `ipset_strchr` with a single separator character, reduced to the
`strchr` result guarded by the boundary test. -/
theorem ipset_strchr_single (s : List Char) (c : Char) :
    ipset_strchr s [c] =
      match strchrIdx s c with
      | some i => if s.head? ≠ some c ∧ s.getLast? ≠ some c then some i else none
      | none => none := by
  cases h : strchrIdx s c <;> simp [ipset_strchr, h]

/-- C1 (counterexample): the range separator occurs at interior position 1
of "a-b-", yet because it also ends the string, `ipset_strchr` returns
none — the original claim expects the interior position. -/
theorem c1_counterexample :
    ("a-b-".data).get? 1 = some '-' ∧ 0 < 1 ∧ 1 + 1 < ("a-b-".data).length ∧
    ipset_strchr ("a-b-".data) rangeSepChars = none := by
  exact ⟨by decide, by decide, by decide, by decide⟩

/-- C1 (amended): if the separator character is the first or the last
character of the string, `find` returns none (regardless of interior
occurrences); otherwise `find` returns the position of the first
occurrence, which is then necessarily interior. -/
theorem c1_amended (s : List Char) (c : Char) :
    (s.head? = some c ∨ s.getLast? = some c → ipset_strchr s [c] = none) ∧
    (s.head? ≠ some c → s.getLast? ≠ some c →
      ∀ i, strchrIdx s c = some i →
        ipset_strchr s [c] = some i ∧ 0 < i ∧ i + 1 < s.length ∧
        s.get? i = some c ∧ ∀ j, j < i → s.get? j ≠ some c) := by
  constructor
  · intro h
    rw [ipset_strchr_single]
    cases hx : strchrIdx s c with
    | none => rfl
    | some i =>
      have hcond : ¬ (s.head? ≠ some c ∧ s.getLast? ≠ some c) := by
        rcases h with h | h
        · exact fun hc => hc.1 h
        · exact fun hc => hc.2 h
      simp [hcond]
  · intro h1 h2 i hi
    obtain ⟨hl, hg, hfirst⟩ := strchrIdx_spec s c i hi
    have hip : ipset_strchr s [c] = some i := by
      rw [ipset_strchr_single, hi]
      simp [h1, h2]
    have hi0 : 0 < i := by
      by_contra h0
      have hz : i = 0 := by omega
      subst hz
      rw [List.get?_zero] at hg
      exact h1 hg
    have hilast : i + 1 < s.length := by
      rcases Nat.lt_or_ge (i + 1) s.length with hlt | hge
      · exact hlt
      · exfalso
        apply h2
        have he : i = s.length - 1 := by omega
        rw [List.getLast?_eq_get?, ← he, hg]
    exact ⟨hip, hi0, hilast, hg, hfirst⟩

/-- C1 (witness): the amended theorem applied to the concrete string
"a-b" and separator dash. -/
theorem c1_witness :
    ipset_strchr ("a-b".data) ['-'] = some 1 ∧ 0 < 1 ∧
    1 + 1 < ("a-b".data).length := by
  have h := (c1_amended ("a-b".data) '-').2 (by decide) (by decide) 1 (by decide)
  exact ⟨h.1, h.2.1, h.2.2.1⟩

/-! ## Facts about digits and `strtoull` -/

/-- Value accumulated by the digit loop over a digit string. -/
def digitsVal (base : Nat) (ds : List Char) : Nat :=
  ds.foldl (fun a c => a * base + (digitVal c).getD 0) 0

theorem isBaseDigit_true_iff (base : Nat) (c : Char) :
    isBaseDigit base c = true ↔ ∃ d, digitVal c = some d ∧ d < base := by
  unfold isBaseDigit
  cases h : digitVal c with
  | none => simp
  | some d => simp [h]

theorem isBaseDigit_of_none (base : Nat) (c : Char) (h : digitVal c = none) :
    isBaseDigit base c = false := by
  simp [isBaseDigit, h]

theorem ne_of_digitVal_none (base : Nat) (c x : Char)
    (hc : isBaseDigit base c = true) (hx : digitVal x = none) : c ≠ x := by
  rintro rfl
  rw [isBaseDigit_of_none base c hx] at hc
  exact Bool.noConfusion hc

theorem isSpaceC_isBaseDigit_false (base : Nat) (c : Char)
    (h : isBaseDigit base c = true) : isSpaceC c = false := by
  by_contra hs
  have hs2 : isSpaceC c = true := by simpa using hs
  have hor : c = ' ' ∨ c = '\t' ∨ c = '\n' ∨ c = '\x0b' ∨ c = '\x0c' ∨ c = '\r' := by
    simpa [isSpaceC, or_assoc] using hs2
  rcases hor with rfl | rfl | rfl | rfl | rfl | rfl <;>
    rw [isBaseDigit_of_none base _ (by decide)] at h <;> exact Bool.noConfusion h

/-- The digit loop consumes exactly a digit prefix and stops at the first
non-digit. -/
theorem parseDigits_eq (base : Nat) (good junk : List Char) (acc : Nat)
    (hg : ∀ c ∈ good, isBaseDigit base c = true)
    (hj : ∀ j, junk.head? = some j → isBaseDigit base j = false) :
    parseDigits base (good ++ junk) acc =
      (good.foldl (fun a c => a * base + (digitVal c).getD 0) acc, good.length) := by
  induction good generalizing acc with
  | nil =>
    simp only [List.nil_append, List.foldl_nil, List.length_nil]
    cases junk with
    | nil => rfl
    | cons j rest =>
      have hjj := hj j rfl
      simp [parseDigits, hjj]
  | cons c t ih =>
    have hc := hg c (List.mem_cons_self c t)
    have ihh := ih (acc * base + (digitVal c).getD 0)
      (fun x hx => hg x (List.mem_cons_of_mem c hx))
    simp only [List.cons_append, parseDigits, hc, if_true, List.foldl_cons,
      List.length_cons, Prod.mk.injEq, List.append_eq]
    refine ⟨?_, ?_⟩ <;> rw [ihh]

/-- `strtoull` on a decimal numeral (no leading zero) followed by a
non-digit tail: consumes exactly the numeral. -/
theorem strtoull0_dec (s junk : List Char) (hne : s ≠ [])
    (hdig : ∀ c ∈ s, isBaseDigit 10 c = true)
    (h0 : s.head? ≠ some '0')
    (hj : ∀ j, junk.head? = some j → isBaseDigit 10 j = false) :
    strtoull0 (s ++ junk) =
      if ULLONG_MAX < digitsVal 10 s then
        { value := ULLONG_MAX, len := s.length, erange := true }
      else { value := digitsVal 10 s, len := s.length, erange := false } := by
  obtain ⟨c, t, rfl⟩ := List.exists_cons_of_ne_nil hne
  have hc : isBaseDigit 10 c = true := hdig c (List.mem_cons_self c t)
  have hsp : isSpaceC c = false := isSpaceC_isBaseDigit_false 10 c hc
  have hm : c ≠ '-' := ne_of_digitVal_none 10 c '-' hc (by decide)
  have hp : c ≠ '+' := ne_of_digitVal_none 10 c '+' hc (by decide)
  have h0c : c ≠ '0' := fun h => h0 (by simp [h])
  have hpd := parseDigits_eq 10 (c :: t) junk 0 hdig hj
  simp only [strtoull0, hexPrefixOK, List.cons_append, List.takeWhile_cons, hsp,
    Bool.false_eq_true, if_false, List.dropWhile_cons, List.head?_cons,
    Option.some.injEq, hm, hp, decide_eq_true_eq, Bool.or_self,
    List.length_nil, List.get?_cons_zero, h0c, Bool.false_and,
    Bool.and_false, if_neg, hpd, digitsVal]
  rw [List.cons_append] at hpd
  simp only [decide_False, Bool.false_and, Bool.false_eq_true, if_false, hpd]
  simp [ULLONG_MAX]

/-- The hex prefix never fires after a leading `0` that continues with an
octal digit, nor (when the claimed tail restrictions hold) after a bare
"0". -/
theorem hexPrefixOK_oct (ds junk : List Char)
    (hdig : ∀ c ∈ ds, isBaseDigit 8 c = true)
    (hx : ds = [] → ∀ j, junk.head? = some j → (j = 'x' ∨ j = 'X') →
      ∀ d, junk.get? 1 = some d → isBaseDigit 16 d = false) :
    hexPrefixOK (('0' :: ds) ++ junk) = false := by
  cases ds with
  | cons c ds2 =>
    have hcx : c ≠ 'x' :=
      ne_of_digitVal_none 8 c 'x' (hdig c (List.mem_cons_self c ds2)) (by decide)
    have hcX : c ≠ 'X' :=
      ne_of_digitVal_none 8 c 'X' (hdig c (List.mem_cons_self c ds2)) (by decide)
    simp [hexPrefixOK, hcx, hcX]
  | nil =>
    cases junk with
    | nil => simp [hexPrefixOK]
    | cons j jr =>
      by_cases hjx : j = 'x' ∨ j = 'X'
      · cases jr with
        | nil => simp [hexPrefixOK]
        | cons d jr2 =>
          have h3 : isBaseDigit 16 d = false := hx rfl j rfl hjx d rfl
          simp [hexPrefixOK, h3]
      · push_neg at hjx
        simp [hexPrefixOK, hjx.1, hjx.2]

/-- `strtoull` on a leading-zero octal numeral followed by a tail that
neither continues the digits nor retroactively forms a hex prefix. -/
theorem strtoull0_oct (ds junk : List Char)
    (hdig : ∀ c ∈ ds, isBaseDigit 8 c = true)
    (hj : ∀ j, junk.head? = some j → isBaseDigit 8 j = false)
    (hx : ds = [] → ∀ j, junk.head? = some j → (j = 'x' ∨ j = 'X') →
      ∀ d, junk.get? 1 = some d → isBaseDigit 16 d = false) :
    strtoull0 (('0' :: ds) ++ junk) =
      if ULLONG_MAX < digitsVal 8 ('0' :: ds) then
        { value := ULLONG_MAX, len := ds.length + 1, erange := true }
      else { value := digitsVal 8 ('0' :: ds), len := ds.length + 1,
             erange := false } := by
  have hall : ∀ c ∈ '0' :: ds, isBaseDigit 8 c = true := by
    intro c hc
    rcases List.mem_cons.mp hc with rfl | hc2
    · decide
    · exact hdig c hc2
  have hpd := parseDigits_eq 8 ('0' :: ds) junk 0 hall hj
  rw [List.cons_append] at hpd
  have hhex := hexPrefixOK_oct ds junk hdig hx
  rw [List.cons_append] at hhex
  simp only [strtoull0, List.cons_append, List.takeWhile_cons,
    show isSpaceC '0' = false from by decide, Bool.false_eq_true, if_false,
    List.dropWhile_cons, List.head?_cons, Option.some.injEq,
    show ('0' : Char) ≠ '-' from by decide, show ('0' : Char) ≠ '+' from by decide,
    decide_eq_true_eq, Bool.or_self, List.length_nil, hhex, hpd, digitsVal]
  simp [hpd, ULLONG_MAX, digitsVal]

/-- The hex prefix fires on `0x` followed by a hex digit. -/
theorem hexPrefixOK_hex (x : Char) (hxc : x = 'x' ∨ x = 'X')
    (d : Char) (hd : isBaseDigit 16 d = true) (rest : List Char) :
    hexPrefixOK ('0' :: x :: d :: rest) = true := by
  rcases hxc with rfl | rfl <;> simp [hexPrefixOK, hd]

/-- `strtoull` on a `0x`-prefixed hexadecimal numeral followed by a
non-hex-digit tail. -/
theorem strtoull0_hex (x : Char) (hxc : x = 'x' ∨ x = 'X') (ds junk : List Char)
    (hne : ds ≠ [])
    (hdig : ∀ c ∈ ds, isBaseDigit 16 c = true)
    (hj : ∀ j, junk.head? = some j → isBaseDigit 16 j = false) :
    strtoull0 (('0' :: x :: ds) ++ junk) =
      if ULLONG_MAX < digitsVal 16 ds then
        { value := ULLONG_MAX, len := ds.length + 2, erange := true }
      else { value := digitsVal 16 ds, len := ds.length + 2,
             erange := false } := by
  obtain ⟨d0, dt, rfl⟩ := List.exists_cons_of_ne_nil hne
  have hpd := parseDigits_eq 16 (d0 :: dt) junk 0 hdig hj
  rw [List.cons_append] at hpd
  have hhex := hexPrefixOK_hex x hxc d0 (hdig d0 (List.mem_cons_self d0 dt)) (dt ++ junk)
  have hxs : x ≠ '-' := by rcases hxc with rfl | rfl <;> decide
  have hxp : x ≠ '+' := by rcases hxc with rfl | rfl <;> decide
  simp only [strtoull0, List.cons_append, List.takeWhile_cons,
    show isSpaceC '0' = false from by decide, Bool.false_eq_true, if_false,
    List.dropWhile_cons, List.head?_cons, Option.some.injEq,
    show ('0' : Char) ≠ '-' from by decide, show ('0' : Char) ≠ '+' from by decide,
    decide_eq_true_eq, Bool.or_self, List.length_nil, hhex, if_true,
    List.drop_succ_cons, List.drop_zero, hpd, digitsVal]
  simp [hpd, ULLONG_MAX, digitsVal]
  have h2 : 2 + (dt.length + 1) = dt.length + 1 + 2 := by omega
  rw [h2]

/-! ## Numeral forms and the bounded numeric parser (C5) -/

/-- A decimal numeral: nonempty digits without a leading zero. -/
def DecNumeral (s : List Char) : Prop :=
  s ≠ [] ∧ (∀ c ∈ s, isBaseDigit 10 c = true) ∧ s.head? ≠ some '0'

/-- A leading-zero octal numeral (including "0" itself). -/
def OctNumeral (s : List Char) : Prop :=
  ∃ ds, s = '0' :: ds ∧ ∀ c ∈ ds, isBaseDigit 8 c = true

/-- A 0x-prefixed hexadecimal numeral. -/
def HexNumeral (s : List Char) : Prop :=
  ∃ x ds, s = '0' :: x :: ds ∧ (x = 'x' ∨ x = 'X') ∧ ds ≠ [] ∧
    ∀ c ∈ ds, isBaseDigit 16 c = true

/-- The base `strtoull`'s auto-detection will select for a numeral. -/
def numeralBase (s : List Char) : Nat :=
  if s.get? 0 = some '0' then
    if s.get? 1 = some 'x' ∨ s.get? 1 = some 'X' then 16 else 8
  else 10

/-- The mathematical value of a numeral. -/
def numeralVal (s : List Char) : Nat :=
  if s.get? 0 = some '0' then
    if s.get? 1 = some 'x' ∨ s.get? 1 = some 'X' then digitsVal 16 (s.drop 2)
    else digitsVal 8 s
  else digitsVal 10 s

/-- A tail after which the conversion stops exactly at the numeral: it is
nonempty, starts with a character that is not a digit of the numeral's
base, and (after a bare "0") does not retroactively form a hex prefix. -/
def JunkStops (s junk : List Char) : Prop :=
  junk ≠ [] ∧
  (∀ j, junk.head? = some j → isBaseDigit (numeralBase s) j = false) ∧
  (s = ['0'] → ∀ j, junk.head? = some j → (j = 'x' ∨ j = 'X') →
    ∀ d, junk.get? 1 = some d → isBaseDigit 16 d = false)

/-- Classify `string_to_number_ll` on a full conversion. -/
theorem stnll_cases (s : List Char) (mn mx v : Nat) (hmx : mx ≤ ULLONG_MAX)
    (hlen0 : s.length ≠ 0)
    (hcull : strtoull0 s =
      if ULLONG_MAX < v then
        { value := ULLONG_MAX, len := s.length, erange := true }
      else { value := v, len := s.length, erange := false }) :
    (mn ≤ v ∧ v ≤ (if mx = 0 then ULLONG_MAX else mx) →
      string_to_number_ll s mn mx = Except.ok v) ∧
    (¬(mn ≤ v ∧ v ≤ (if mx = 0 then ULLONG_MAX else mx)) →
      string_to_number_ll s mn mx =
        Except.error (Diag.outOfRange mn (if mx = 0 then ULLONG_MAX else mx))) := by
  constructor
  · rintro ⟨h1, h2⟩
    have hv : ¬ ULLONG_MAX < v := by
      by_cases h0 : mx = 0
      · rw [if_pos h0] at h2
        omega
      · rw [if_neg h0] at h2
        omega
    have hcond : mn ≤ v ∧ (mx = 0 ∨ v ≤ mx) := by
      refine ⟨h1, ?_⟩
      by_cases h0 : mx = 0
      · exact Or.inl h0
      · rw [if_neg h0] at h2
        exact Or.inr h2
    unfold string_to_number_ll
    rw [hcull, if_neg hv]
    simp [hcond, hlen0]
  · intro hrange
    unfold string_to_number_ll
    rw [hcull]
    by_cases hv : ULLONG_MAX < v
    · rw [if_pos hv]
      by_cases h0 : mx = 0
      · simp [h0]
      · simp [h0]
    · rw [if_neg hv]
      have hcond : ¬ (mn ≤ v ∧ (mx = 0 ∨ v ≤ mx)) := by
        rintro ⟨h1, h2⟩
        apply hrange
        refine ⟨h1, ?_⟩
        by_cases h0 : mx = 0
        · rw [if_pos h0]
          omega
        · rw [if_neg h0]
          rcases h2 with h2 | h2
          · exact absurd h2 h0
          · exact h2
      by_cases h0 : mx = 0
      · have hlt : v < mn := by
          rcases Nat.lt_or_ge v mn with h | h
          · exact h
          · exact absurd ⟨h, Or.inl h0⟩ hcond
        simp [hlen0, h0]
        omega
      · simp [hlen0, h0]
        intro h1
        rcases Nat.lt_or_ge mx v with h | h
        · exact h
        · exact absurd ⟨h1, Or.inr h⟩ hcond

/-- Classify `string_to_number_ll` on a partial conversion (trailing
junk): `NotANumber` unless the consumed prefix overflowed, which yields
the out-of-range error instead. -/
theorem stnll_junk (s : List Char) (mn mx v L : Nat)
    (hL : L < s.length)
    (hcull : strtoull0 s =
      if ULLONG_MAX < v then { value := ULLONG_MAX, len := L, erange := true }
      else { value := v, len := L, erange := false }) :
    string_to_number_ll s mn mx =
      (if v ≤ ULLONG_MAX then Except.error Diag.notANumber
       else Except.error
         (Diag.outOfRange mn (if mx = 0 then ULLONG_MAX else mx))) := by
  unfold string_to_number_ll
  rw [hcull]
  by_cases hv : ULLONG_MAX < v
  · rw [if_pos hv]
    have hlen : ¬ (L = s.length) := by omega
    by_cases h0 : mx = 0
    · simp [hlen, h0, show ¬ v ≤ ULLONG_MAX from by omega]
    · simp [hlen, h0, show ¬ v ≤ ULLONG_MAX from by omega]
  · rw [if_neg hv]
    have hlen : ¬ (L = s.length) := by omega
    simp [hlen, show v ≤ ULLONG_MAX from by omega]

theorem numeralVal_dec (s : List Char) (h : DecNumeral s) :
    numeralVal s = digitsVal 10 s := by
  obtain ⟨hne, hd, h0⟩ := h
  unfold numeralVal
  rw [List.get?_zero, if_neg h0]

theorem numeralBase_dec (s : List Char) (h : DecNumeral s) :
    numeralBase s = 10 := by
  obtain ⟨hne, hd, h0⟩ := h
  unfold numeralBase
  rw [List.get?_zero, if_neg h0]

theorem numeralVal_oct (ds : List Char) (hd : ∀ c ∈ ds, isBaseDigit 8 c = true) :
    numeralVal ('0' :: ds) = digitsVal 8 ('0' :: ds) := by
  unfold numeralVal
  cases ds with
  | nil => simp
  | cons c t =>
    have hcx : c ≠ 'x' :=
      ne_of_digitVal_none 8 c 'x' (hd c (List.mem_cons_self c t)) (by decide)
    have hcX : c ≠ 'X' :=
      ne_of_digitVal_none 8 c 'X' (hd c (List.mem_cons_self c t)) (by decide)
    simp [hcx, hcX]

theorem numeralBase_oct (ds : List Char) (hd : ∀ c ∈ ds, isBaseDigit 8 c = true) :
    numeralBase ('0' :: ds) = 8 := by
  unfold numeralBase
  cases ds with
  | nil => simp
  | cons c t =>
    have hcx : c ≠ 'x' :=
      ne_of_digitVal_none 8 c 'x' (hd c (List.mem_cons_self c t)) (by decide)
    have hcX : c ≠ 'X' :=
      ne_of_digitVal_none 8 c 'X' (hd c (List.mem_cons_self c t)) (by decide)
    simp [hcx, hcX]

theorem numeralVal_hex (x : Char) (hxc : x = 'x' ∨ x = 'X') (ds : List Char) :
    numeralVal ('0' :: x :: ds) = digitsVal 16 ds := by
  unfold numeralVal
  rcases hxc with rfl | rfl <;> simp

theorem numeralBase_hex (x : Char) (hxc : x = 'x' ∨ x = 'X') (ds : List Char) :
    numeralBase ('0' :: x :: ds) = 16 := by
  unfold numeralBase
  rcases hxc with rfl | rfl <;> simp

/-- `strtoull` consumes exactly a numeral from numeral-plus-stopping-tail
input, yielding its value (with `ERANGE` clamping above the 64-bit
maximum). -/
theorem strtoull0_numeral (s junk : List Char)
    (hnum : DecNumeral s ∨ OctNumeral s ∨ HexNumeral s)
    (hj : ∀ j, junk.head? = some j → isBaseDigit (numeralBase s) j = false)
    (hx : s = ['0'] → ∀ j, junk.head? = some j → (j = 'x' ∨ j = 'X') →
      ∀ d, junk.get? 1 = some d → isBaseDigit 16 d = false) :
    strtoull0 (s ++ junk) =
      if ULLONG_MAX < numeralVal s then
        { value := ULLONG_MAX, len := s.length, erange := true }
      else { value := numeralVal s, len := s.length, erange := false } := by
  rcases hnum with h | h | h
  · have hb := numeralBase_dec s h
    rw [hb] at hj
    rw [numeralVal_dec s h]
    obtain ⟨hne, hd, h0⟩ := h
    exact strtoull0_dec s junk hne hd h0 hj
  · obtain ⟨ds, rfl, hd⟩ := h
    have hb := numeralBase_oct ds hd
    rw [hb] at hj
    rw [numeralVal_oct ds hd]
    have hx2 : ds = [] → ∀ j, junk.head? = some j → (j = 'x' ∨ j = 'X') →
        ∀ d, junk.get? 1 = some d → isBaseDigit 16 d = false := by
      rintro rfl
      exact hx rfl
    have := strtoull0_oct ds junk hd hj hx2
    simpa [List.length_cons] using this
  · obtain ⟨x, ds, rfl, hxc, hne, hd⟩ := h
    have hb := numeralBase_hex x hxc ds
    rw [hb] at hj
    rw [numeralVal_hex x hxc ds]
    have := strtoull0_hex x hxc ds junk hne hd hj
    simpa [List.length_cons] using this

/-- A numeral is nonempty. -/
theorem numeral_ne_nil (s : List Char)
    (hnum : DecNumeral s ∨ OctNumeral s ∨ HexNumeral s) : s ≠ [] := by
  rcases hnum with ⟨hne, -, -⟩ | ⟨ds, rfl, -⟩ | ⟨x, ds, rfl, -, -, -⟩ <;>
    simp_all

/-- C5 (counterexample): two deviations from the claim.  First, on the
string "18446744073709551616z" — trailing non-numeric character after a
numeric prefix that overflows 64 bits — the parser reports the range
error, not the `NotANumber` syntax error the claim requires for every
string with trailing non-numeric characters.  Second, with bounds
`[0, 0]` the value 5 lies outside the inclusive bounds yet the parser
accepts "5", because a `max` of 0 means unbounded. -/
theorem c5_counterexample :
    string_to_number_ll ("18446744073709551616z".data) 0 255 =
      Except.error (Diag.outOfRange 0 255) ∧
    string_to_number_ll ("18446744073709551616z".data) 0 255 ≠
      Except.error Diag.notANumber ∧
    string_to_number_ll ("5".data) 0 0 = Except.ok 5 := by
  have h1 : string_to_number_ll ("18446744073709551616z".data) 0 255 =
      Except.error (Diag.outOfRange 0 255) := rfl
  refine ⟨h1, ?_, rfl⟩
  rw [h1]
  intro h
  injection h with h2
  exact Diag.noConfusion h2

/-- Full classification of the bounded numeric parser on numerals with an
optional stopping tail. -/
theorem stnll_numeral (s junk : List Char) (mn mx : Nat) (hmx : mx ≤ ULLONG_MAX)
    (hnum : DecNumeral s ∨ OctNumeral s ∨ HexNumeral s) :
    (mn ≤ numeralVal s ∧ numeralVal s ≤ (if mx = 0 then ULLONG_MAX else mx) →
      string_to_number_ll s mn mx = Except.ok (numeralVal s)) ∧
    (¬(mn ≤ numeralVal s ∧ numeralVal s ≤ (if mx = 0 then ULLONG_MAX else mx)) →
      string_to_number_ll s mn mx =
        Except.error (Diag.outOfRange mn (if mx = 0 then ULLONG_MAX else mx))) ∧
    (JunkStops s junk →
      string_to_number_ll (s ++ junk) mn mx =
        (if numeralVal s ≤ ULLONG_MAX then Except.error Diag.notANumber
         else Except.error
           (Diag.outOfRange mn (if mx = 0 then ULLONG_MAX else mx)))) := by
  have hne := numeral_ne_nil s hnum
  have hlen0 : s.length ≠ 0 := by
    simpa using List.length_pos.mpr hne |>.ne'
  have hfull : strtoull0 s =
      if ULLONG_MAX < numeralVal s then
        { value := ULLONG_MAX, len := s.length, erange := true }
      else { value := numeralVal s, len := s.length, erange := false } := by
    have h := strtoull0_numeral s [] hnum
      (by intro j hj; exact absurd hj (by simp))
      (by intro h j hj; exact absurd hj (by simp))
    simpa using h
  obtain ⟨hA, hB⟩ := stnll_cases s mn mx (numeralVal s) hmx hlen0 hfull
  refine ⟨hA, hB, ?_⟩
  rintro ⟨hjne, hjd, hjx⟩
  have hjunk := strtoull0_numeral s junk hnum hjd hjx
  have hL : s.length < (s ++ junk).length := by
    rw [List.length_append]
    have : junk.length ≠ 0 := by
      simpa using List.length_pos.mpr hjne |>.ne'
    omega
  exact stnll_junk (s ++ junk) mn mx (numeralVal s) s.length hL hjunk

/-- C5 (amended): with the effective upper bound `effMax` being `max`
when nonzero and the 64-bit maximum when `max = 0` (the unbounded
convention): every decimal, 0x-prefixed hexadecimal or leading-zero
octal numeral evaluates to its value when that value lies in
`[min, effMax]`; a numeral whose value lies outside fails with the range
error naming `[min, effMax]`; and a numeral followed by a non-numeric
tail fails with the `NotANumber` syntax error when the numeral's value
fits in 64 bits, and with the range error when it overflows. -/
theorem c5_amended (s junk : List Char) (mn mx : Nat) (hmx : mx ≤ ULLONG_MAX)
    (hnum : DecNumeral s ∨ OctNumeral s ∨ HexNumeral s) :
    (mn ≤ numeralVal s ∧ numeralVal s ≤ (if mx = 0 then ULLONG_MAX else mx) →
      string_to_number_ll s mn mx = Except.ok (numeralVal s)) ∧
    (¬(mn ≤ numeralVal s ∧ numeralVal s ≤ (if mx = 0 then ULLONG_MAX else mx)) →
      string_to_number_ll s mn mx =
        Except.error (Diag.outOfRange mn (if mx = 0 then ULLONG_MAX else mx))) ∧
    (JunkStops s junk →
      string_to_number_ll (s ++ junk) mn mx =
        (if numeralVal s ≤ ULLONG_MAX then Except.error Diag.notANumber
         else Except.error
           (Diag.outOfRange mn (if mx = 0 then ULLONG_MAX else mx)))) :=
  stnll_numeral s junk mn mx hmx hnum

/-- C5 (witness): the amended theorem at concrete inputs — "0x1f" in
[0,255] yields 31, "300" in [0,255] is a range error, and "12ab" is a
syntax error. -/
theorem c5_witness :
    string_to_number_ll ("0x1f".data) 0 255 = Except.ok 31 ∧
    string_to_number_ll ("300".data) 0 255 =
      Except.error (Diag.outOfRange 0 255) ∧
    string_to_number_ll ("12ab".data) 0 255 = Except.error Diag.notANumber := by
  have h1 := c5_amended ("0x1f".data) [] 0 255 (by decide)
    (Or.inr (Or.inr ⟨'x', ['1', 'f'], rfl, Or.inl rfl, by decide, by decide⟩))
  have h2 := c5_amended ("300".data) [] 0 255 (by decide)
    (Or.inl ⟨by decide, by decide, by decide⟩)
  have h3 := c5_amended ("12".data) ("ab".data) 0 255 (by decide)
    (Or.inl ⟨by decide, by decide, by decide⟩)
  refine ⟨?_, ?_, ?_⟩
  · exact h1.1 (by decide)
  · exact h2.2.1 (by decide)
  · exact h3.2.2 ⟨by decide, by decide, by decide⟩

/-! ## Decimal rendering of naturals, for roundtrip statements -/

def digitChar (d : Nat) : Char :=
  match d with
  | 0 => '0' | 1 => '1' | 2 => '2' | 3 => '3' | 4 => '4'
  | 5 => '5' | 6 => '6' | 7 => '7' | 8 => '8' | _ => '9'

def natDigits (n : Nat) : List Char :=
  if h : n < 10 then [digitChar n]
  else natDigits (n / 10) ++ [digitChar (n % 10)]
termination_by n
decreasing_by exact Nat.div_lt_self (by omega) (by omega)

theorem digitVal_digitChar (d : Nat) (h : d ≤ 9) :
    digitVal (digitChar d) = some d := by
  interval_cases d <;> decide

theorem isBaseDigit_digitChar (d : Nat) (h : d ≤ 9) :
    isBaseDigit 10 (digitChar d) = true := by
  simp [isBaseDigit, digitVal_digitChar d h]
  omega

theorem natDigits_all (n : Nat) :
    ∀ c ∈ natDigits n, isBaseDigit 10 c = true := by
  induction n using Nat.strong_induction_on with
  | _ n ih =>
    rw [natDigits]
    split
    · rename_i h
      intro c hc
      rw [List.mem_singleton.mp hc]
      exact isBaseDigit_digitChar n (by omega)
    · rename_i h
      intro c hc
      rcases List.mem_append.mp hc with hc2 | hc2
      · exact ih (n / 10) (Nat.div_lt_self (by omega) (by omega)) c hc2
      · rw [List.mem_singleton.mp hc2]
        exact isBaseDigit_digitChar (n % 10) (by omega)

theorem natDigits_ne_nil (n : Nat) : natDigits n ≠ [] := by
  rw [natDigits]
  split
  · simp
  · simp

theorem natDigits_head_ne_zero (n : Nat) (hn : 1 ≤ n) :
    (natDigits n).head? ≠ some '0' := by
  induction n using Nat.strong_induction_on with
  | _ n ih =>
    rw [natDigits]
    split
    · rename_i h
      intro hc
      simp only [List.head?_cons, Option.some.injEq] at hc
      interval_cases n <;> exact absurd hc (by decide)
    · rename_i h
      rw [List.head?_append_of_ne_nil _ (natDigits_ne_nil (n / 10))]
      exact ih (n / 10) (Nat.div_lt_self (by omega) (by omega))
        (by have := Nat.div_pos (by omega : 10 ≤ n) (by omega); omega)

theorem natDigits_val (n : Nat) : digitsVal 10 (natDigits n) = n := by
  induction n using Nat.strong_induction_on with
  | _ n ih =>
    rw [natDigits]
    split
    · rename_i h
      simp only [digitsVal, List.foldl_cons, List.foldl_nil,
        digitVal_digitChar n (by omega), Option.getD_some]
      omega
    · rename_i h
      have ihv := ih (n / 10) (Nat.div_lt_self (by omega) (by omega))
      unfold digitsVal at ihv ⊢
      rw [List.foldl_append, ihv]
      simp only [List.foldl_cons, List.foldl_nil,
        digitVal_digitChar (n % 10) (by omega), Option.getD_some]
      omega

/-- A rendered natural is a decimal numeral of the same value (a bare "0"
is the octal numeral "0", also of value 0). -/
theorem natDigits_numeral (n : Nat) :
    (DecNumeral (natDigits n) ∨ OctNumeral (natDigits n) ∨
      HexNumeral (natDigits n)) ∧ numeralVal (natDigits n) = n := by
  rcases Nat.eq_zero_or_pos n with rfl | hn
  · have h0 : natDigits 0 = ['0'] := by rw [natDigits]; rfl
    rw [h0]
    exact ⟨Or.inr (Or.inl ⟨[], rfl, by simp⟩), by decide⟩
  · have hd : DecNumeral (natDigits n) :=
      ⟨natDigits_ne_nil n, natDigits_all n, natDigits_head_ne_zero n hn⟩
    exact ⟨Or.inl hd, by rw [numeralVal_dec _ hd, natDigits_val]⟩

/-! ## Splitting around an explicit separator -/

/-- `sepSplit` around an explicit interior separator occurrence. -/
theorem sepSplit_append (c : Char) (xs ys : List Char)
    (hx : c ∉ xs) (hxne : xs ≠ []) (hyne : ys ≠ [])
    (hlast : ys.getLast? ≠ some c) :
    sepSplit [c] (xs ++ c :: ys) = some (xs, ys) := by
  obtain ⟨a, t, rfl⟩ := List.exists_cons_of_ne_nil hxne
  have hidx := strchrIdx_append (a :: t) ys c hx
  have hhead : ((a :: t) ++ c :: ys).head? ≠ some c := by
    intro h
    simp only [List.cons_append, List.head?_cons, Option.some.injEq] at h
    exact hx (h ▸ List.mem_cons_self a t)
  have hgl : ((a :: t) ++ c :: ys).getLast? = ys.getLast? := by
    rw [List.getLast?_append_of_ne_nil _ (by simp : (c :: ys) ≠ [])]
    exact List.getLast?_append_of_ne_nil [c] hyne
  have hcond : ((a :: t) ++ c :: ys).head? ≠ some c ∧
      ((a :: t) ++ c :: ys).getLast? ≠ some c := ⟨hhead, by rw [hgl]; exact hlast⟩
  have htake : ((a :: t) ++ c :: ys).take (a :: t).length = a :: t :=
    List.take_left (a :: t) (c :: ys)
  have hdrop : ((a :: t) ++ c :: ys).drop ((a :: t).length + 1) = ys := by
    have he : (a :: t) ++ c :: ys = ((a :: t) ++ [c]) ++ ys := by simp
    have hl : ((a :: t) ++ [c]).length = (a :: t).length + 1 := by simp
    rw [he, ← hl]
    exact List.drop_left _ ys
  unfold sepSplit
  rw [ipset_strchr_single, hidx]
  simp only [hcond.1, hcond.2, ne_eq, not_false_iff, and_self, if_true,
    htake, hdrop]

/-- Digit strings contain no separator characters. -/
theorem not_mem_natDigits_of_digitVal_none (n : Nat) (x : Char)
    (hx : digitVal x = none) : x ∉ natDigits n := by
  intro h
  have hb := natDigits_all n x h
  rw [isBaseDigit_of_none 10 x hx] at hb
  exact Bool.noConfusion hb

theorem natDigits_getLast_ne (n : Nat) (x : Char) (hx : digitVal x = none) :
    (natDigits n).getLast? ≠ some x := by
  intro h
  exact not_mem_natDigits_of_digitVal_none n x hx (List.mem_of_mem_getLast? h)

/-- `string_to_u8` accepts a rendered value in 0..255. -/
theorem string_to_u8_natDigits (v : Nat) (hv : v ≤ 255) :
    string_to_u8 (natDigits v) = Except.ok v := by
  obtain ⟨hnum, hval⟩ := natDigits_numeral v
  have h := (stnll_numeral (natDigits v) [] 0 255 (by decide) hnum).1
    (by rw [hval]; exact ⟨Nat.zero_le v, by simp; omega⟩)
  rw [hval] at h
  exact h

/-! ## C2: ICMP type/code packing -/

/-- Strings containing the CIDR separator never match the ICMP name
table. -/
theorem name_to_icmp_slash (xs ys : List Char) :
    name_to_icmp (xs ++ '/' :: ys) = none := by
  have hm : '/' ∈ xs ++ '/' :: ys :=
    List.mem_append_right xs (List.mem_cons_self '/' ys)
  have h1 : ¬ (("echo-reply".data : List Char) = xs ++ '/' :: ys) := by
    intro h
    rw [← h] at hm
    exact absurd hm (by decide)
  have h2 : ¬ (("echo-request".data : List Char) = xs ++ '/' :: ys) := by
    intro h
    rw [← h] at hm
    exact absurd hm (by decide)
  have h3 : ¬ (("port-unreachable".data : List Char) = xs ++ '/' :: ys) := by
    intro h
    rw [← h] at hm
    exact absurd hm (by decide)
  simp [name_to_icmp, icmpTable, List.find?, h1, h2, h3]

/-- C2 (counterexample): parsing "3/1" succeeds but stores 259 =
`(1 << 8) | 3`, not the claimed `(3 << 8) | 1 = 769`: the half after the
separator is the type. -/
theorem c2_counterexample :
    (ipset_parse_icmp emptySession IpsetOpt.port ("3/1".data)).1 = 0 ∧
    ((ipset_parse_icmp emptySession IpsetOpt.port ("3/1".data)).2).data.vals
      IpsetOpt.port = some (DVal.num 259) ∧
    (259 : Nat) ≠ 3 * 256 + 1 := by
  refine ⟨rfl, rfl, by decide⟩

/-- C2 (amended): for X, Y in 0..255 the numeric token "X/Y" parses
successfully and stores the packed value `(Y << 8) | X`: the half after
the CIDR-style separator is the type (high byte) and the half before it
is the code (low byte).  In particular "3/1" stores `(1 << 8) | 3`. -/
theorem c2_amended (sess : Session) (X Y : Nat) (hX : X ≤ 255) (hY : Y ≤ 255) :
    ipset_parse_icmp sess IpsetOpt.port (natDigits X ++ '/' :: natDigits Y) =
      (0, sess.dataSet IpsetOpt.port (DVal.num (Y * 256 + X))) := by
  have hsplit : cidrSplit (natDigits X ++ '/' :: natDigits Y) =
      some (natDigits X, natDigits Y) := by
    unfold cidrSplit cidrSepChars
    exact sepSplit_append '/' (natDigits X) (natDigits Y)
      (not_mem_natDigits_of_digitVal_none X '/' (by decide))
      (natDigits_ne_nil X) (natDigits_ne_nil Y)
      (natDigits_getLast_ne Y '/' (by decide))
  have hname := name_to_icmp_slash (natDigits X) (natDigits Y)
  have hu8Y := string_to_u8_natDigits Y hY
  have hu8X := string_to_u8_natDigits X hX
  unfold ipset_parse_icmp
  rw [hname]
  unfold parse_icmp_typecode
  rw [hsplit]
  simp [runNum, hu8Y, hu8X]

/-- C2 (witness): the amended theorem at "3/1", giving 259. -/
theorem c2_witness :
    ipset_parse_icmp emptySession IpsetOpt.port ("3/1".data) =
      (0, emptySession.dataSet IpsetOpt.port (DVal.num 259)) := by
  have h := c2_amended emptySession 3 1 (by omega) (by omega)
  have h3 : natDigits 3 = ['3'] := by
    rw [natDigits, dif_pos (by omega : (3 : Nat) < 10)]
    rfl
  have h1 : natDigits 1 = ['1'] := by
    rw [natDigits, dif_pos (by omega : (1 : Nat) < 10)]
    rfl
  have he : natDigits 3 ++ '/' :: natDigits 1 = "3/1".data := by
    rw [h3, h1]
    rfl
  rw [he] at h
  exact h

/-! ## C4: duplicate option handling in the parser-call wrapper -/

/-- A resolver that always fails; the claims about non-address parsers
never reach it. -/
def nullResolver : Resolver := fun _ _ => none

/-- `string_to_u32` accepts a rendered value in 0..UINT_MAX. -/
theorem string_to_u32_natDigits (v : Nat) (hv : v ≤ 4294967295) :
    string_to_u32 (natDigits v) = Except.ok v := by
  obtain ⟨hnum, hval⟩ := natDigits_numeral v
  have h := (stnll_numeral (natDigits v) [] 0 4294967295 (by decide) hnum).1
    (by rw [hval]; exact ⟨Nat.zero_le v, by simp; omega⟩)
  rw [hval] at h
  exact h

/-- C4 (counterexample): two successive uint32 assignments of the timeout
option through the call wrapper.  The second call records the
duplicate-option diagnostic but still invokes the parser: it returns 0
(success) and the stored value becomes 7 — it does not remain 5, and the
call does not fail. -/
theorem c4_counterexample :
    (ipset_call_parsefn nullResolver
      ((ipset_call_parsefn nullResolver emptySession ParseFn.uint32Fn
        ("timeout".data) IpsetOpt.timeout ("5".data)).2)
      ParseFn.uint32Fn ("timeout".data) IpsetOpt.timeout ("7".data)).1 = 0 ∧
    ((ipset_call_parsefn nullResolver
      ((ipset_call_parsefn nullResolver emptySession ParseFn.uint32Fn
        ("timeout".data) IpsetOpt.timeout ("5".data)).2)
      ParseFn.uint32Fn ("timeout".data) IpsetOpt.timeout
        ("7".data)).2).data.vals IpsetOpt.timeout = some (DVal.num 7) ∧
    ((ipset_call_parsefn nullResolver
      ((ipset_call_parsefn nullResolver emptySession ParseFn.uint32Fn
        ("timeout".data) IpsetOpt.timeout ("5".data)).2)
      ParseFn.uint32Fn ("timeout".data) IpsetOpt.timeout
        ("7".data)).2).report = [Diag.alreadySpecified] ∧
    some (DVal.num 7) ≠ some (DVal.num 5) := by
  refine ⟨rfl, rfl, rfl, by decide⟩

/-- C4 (amended): when the option's set-bit is already raised, a second
assignment through `ipset_call_parser` records the DuplicateOption
diagnostic in the session report but does not abort: the parser runs
anyway, the call returns the parser's result (0 when it succeeds), and
the stored value is overwritten by the new assignment. -/
theorem c4_amended (R : Resolver) (sess : Session) (opt : IpsetOpt)
    (optstr : List Char) (n : Nat) (hn : n ≤ 4294967295)
    (hflag : sess.flagTest opt = true) :
    ipset_call_parsefn R sess ParseFn.uint32Fn optstr opt (natDigits n) =
      (0, (sess.record Diag.alreadySpecified).dataSet opt (DVal.num n)) := by
  unfold ipset_call_parsefn
  rw [hflag]
  simp only [if_true, show (ParseFn.uint32Fn = ParseFn.ignoredFn) = False from by
    simp, if_false, applyParseFn]
  unfold ipset_parse_uint32
  rw [string_to_u32_natDigits n hn]
  simp [runNum]

/-- C4 (witness): the amended theorem with timeout already set to 5 and a
second assignment of 7. -/
theorem c4_witness :
    ipset_call_parsefn nullResolver
      (emptySession.dataSet IpsetOpt.timeout (DVal.num 5)) ParseFn.uint32Fn
      ("timeout".data) IpsetOpt.timeout ("7".data) =
      (0, ((emptySession.dataSet IpsetOpt.timeout (DVal.num 5)).record
        Diag.alreadySpecified).dataSet IpsetOpt.timeout (DVal.num 7)) := by
  have h7 : natDigits 7 = "7".data := by
    rw [natDigits, dif_pos (by omega : (7 : Nat) < 10)]
    rfl
  have h := c4_amended nullResolver
    (emptySession.dataSet IpsetOpt.timeout (DVal.num 5)) IpsetOpt.timeout
    ("timeout".data) 7 (by omega) rfl
  rw [h7] at h
  exact h

/-! ## C6: protocol family mismatch in the combined proto:port parser -/

/-- C6 (theorem): with family INET6 stored in the session, parsing
"icmp:8/0" through the combined protocol:port parser records the
family-mismatch syntax error and stores no port value — but returns 0,
the success code: the C code discards the `syntax_err` return value and
executes `goto error` while `err` still holds 0 from the successful
protocol parse. -/
theorem c6_theorem :
    (ipset_parse_proto_port
      (emptySession.dataSet IpsetOpt.family (DVal.num AF_INET6))
      IpsetOpt.port ("icmp:8/0".data)).1 = 0 ∧
    ((ipset_parse_proto_port
      (emptySession.dataSet IpsetOpt.family (DVal.num AF_INET6))
      IpsetOpt.port ("icmp:8/0".data)).2).data.flags IpsetOpt.port = false ∧
    ((ipset_parse_proto_port
      (emptySession.dataSet IpsetOpt.family (DVal.num AF_INET6))
      IpsetOpt.port ("icmp:8/0".data)).2).data.vals IpsetOpt.port = none ∧
    ((ipset_parse_proto_port
      (emptySession.dataSet IpsetOpt.family (DVal.num AF_INET6))
      IpsetOpt.port ("icmp:8/0".data)).2).report = [Diag.icmpInetOnly] := by
  refine ⟨rfl, rfl, rfl, rfl⟩

/-! ## C10: non-atomicity of the TCP/UDP port-range parser -/

/-- A failing single-port parse leaves the data blob untouched (only the
report changes). -/
theorem ipset_parse_port_fail_data (s : Session) (opt : IpsetOpt)
    (str proto : List Char)
    (h : (ipset_parse_port s opt str proto).1 ≠ 0) :
    ((ipset_parse_port s opt str proto).2).data = s.data := by
  unfold ipset_parse_port at h ⊢
  cases hu : string_to_u16 str with
  | ok v => simp [runNum, hu] at h
  | error d =>
    cases hs : getservbyname str proto with
    | some p => simp [runNum, hu, parse_portname, hs] at h
    | none => simp [runNum, hu, parse_portname, hs, Session.record]

/-- A successful single-port parse raises the option's set-bit and stores
the port value. -/
theorem ipset_parse_port_ok_flag (s : Session) (opt : IpsetOpt)
    (str proto : List Char)
    (h : (ipset_parse_port s opt str proto).1 = 0) :
    ((ipset_parse_port s opt str proto).2).data.flags opt = true := by
  unfold ipset_parse_port at h ⊢
  cases hu : string_to_u16 str with
  | ok v =>
    simp [runNum, hu, Session.reportReset, Session.dataSet, IpsetData.setVal]
  | error d =>
    cases hs : getservbyname str proto with
    | some p =>
      simp [runNum, hu, parse_portname, hs, Session.reportReset,
        Session.dataSet, IpsetData.setVal]
    | none => simp [runNum, hu, parse_portname, hs] at h

/-- C10: when the range string splits as "A-B", the end port B is parsed
and stored under port-to first; if B succeeds and A then fails, the whole
call returns A's failure while the port-to value has already been written
to the store — a failed range parse is not atomic. -/
theorem c10_theorem (sess : Session) (opt : IpsetOpt)
    (str proto A B : List Char)
    (hsplit : rangeSplit str = some (A, B))
    (hB : (ipset_parse_port sess IpsetOpt.portTo B proto).1 = 0)
    (hA : (ipset_parse_port ((ipset_parse_port sess IpsetOpt.portTo B proto).2)
      opt A proto).1 ≠ 0) :
    ipset_parse_tcpudp_port sess opt str proto =
      ipset_parse_port ((ipset_parse_port sess IpsetOpt.portTo B proto).2)
        opt A proto ∧
    (ipset_parse_tcpudp_port sess opt str proto).1 ≠ 0 ∧
    ((ipset_parse_tcpudp_port sess opt str proto).2).data.flags
      IpsetOpt.portTo = true := by
  have heq : ipset_parse_tcpudp_port sess opt str proto =
      ipset_parse_port ((ipset_parse_port sess IpsetOpt.portTo B proto).2)
        opt A proto := by
    unfold ipset_parse_tcpudp_port
    rw [hsplit]
    simp [hB]
  refine ⟨heq, by rw [heq]; exact hA, ?_⟩
  rw [heq, ipset_parse_port_fail_data _ _ _ _ hA]
  exact ipset_parse_port_ok_flag sess IpsetOpt.portTo B proto hB

/-- C10 (witness): "zzz-90" — the end 90 parses and is stored under
port-to, then "zzz" fails, and the whole call fails with port-to still
set. -/
theorem c10_witness :
    (ipset_parse_tcpudp_port emptySession IpsetOpt.port ("zzz-90".data)
      ("TCP".data)).1 ≠ 0 ∧
    ((ipset_parse_tcpudp_port emptySession IpsetOpt.port ("zzz-90".data)
      ("TCP".data)).2).data.flags IpsetOpt.portTo = true ∧
    ((ipset_parse_tcpudp_port emptySession IpsetOpt.port ("zzz-90".data)
      ("TCP".data)).2).data.vals IpsetOpt.portTo = some (DVal.num 90) := by
  have h := c10_theorem emptySession IpsetOpt.port ("zzz-90".data)
    ("TCP".data) ("zzz".data) ("90".data) (by decide) (by decide) (by decide)
  exact ⟨h.2.1, h.2.2, rfl⟩

/-! ## C7: /32 with the plain-address-required variant -/

/-- Concrete resolver for the address-parser theorems: resolves the two
literal example addresses, one result each (the resolver is an external
collaborator; for address literals it returns the literal itself). -/
def testResolver : Resolver := fun s fam =>
  if s = "192.0.2.10".data ∧ fam = AF_INET then some [(AF_INET, 3221225994)]
  else if s = "2001:db8::1".data ∧ fam = AF_INET6 then
    some [(AF_INET6, 42540766411282592856903984951653826561)]
  else none

/-- C7 (counterexample): in the plain-address variant both
"192.0.2.10/32" and "192.0.2.10" succeed, but the results are not
identical: the /32 form additionally raises the CIDR option's set-bit
(and stores 32 under it), which the plain parse leaves clear. -/
theorem c7_counterexample :
    (ipset_parse_single_ip testResolver
      (emptySession.dataSet IpsetOpt.family (DVal.num AF_INET)) IpsetOpt.ip
      ("192.0.2.10/32".data)).1 = 0 ∧
    (ipset_parse_single_ip testResolver
      (emptySession.dataSet IpsetOpt.family (DVal.num AF_INET)) IpsetOpt.ip
      ("192.0.2.10".data)).1 = 0 ∧
    ((ipset_parse_single_ip testResolver
      (emptySession.dataSet IpsetOpt.family (DVal.num AF_INET)) IpsetOpt.ip
      ("192.0.2.10/32".data)).2).data.flags IpsetOpt.cidr = true ∧
    ((ipset_parse_single_ip testResolver
      (emptySession.dataSet IpsetOpt.family (DVal.num AF_INET)) IpsetOpt.ip
      ("192.0.2.10".data)).2).data.flags IpsetOpt.cidr = false := by
  refine ⟨rfl, rfl, rfl, rfl⟩

/-- C7 (amended): the /32 (v4) and /128 (v6) suffixes pass the
plain-address pre-check and both parses succeed storing the same address,
but the suffixed form additionally stores the full mask length under the
companion CIDR option (whose set-bit the plain parse leaves clear), so
the resulting stores are not identical. -/
theorem c7_amended :
    ((ipset_parse_single_ip testResolver
      (emptySession.dataSet IpsetOpt.family (DVal.num AF_INET)) IpsetOpt.ip
      ("192.0.2.10/32".data)).1 = 0 ∧
     (ipset_parse_single_ip testResolver
      (emptySession.dataSet IpsetOpt.family (DVal.num AF_INET)) IpsetOpt.ip
      ("192.0.2.10".data)).1 = 0 ∧
     ((ipset_parse_single_ip testResolver
      (emptySession.dataSet IpsetOpt.family (DVal.num AF_INET)) IpsetOpt.ip
      ("192.0.2.10/32".data)).2).data.vals IpsetOpt.ip =
        some (DVal.addr AF_INET 3221225994) ∧
     ((ipset_parse_single_ip testResolver
      (emptySession.dataSet IpsetOpt.family (DVal.num AF_INET)) IpsetOpt.ip
      ("192.0.2.10".data)).2).data.vals IpsetOpt.ip =
        some (DVal.addr AF_INET 3221225994) ∧
     ((ipset_parse_single_ip testResolver
      (emptySession.dataSet IpsetOpt.family (DVal.num AF_INET)) IpsetOpt.ip
      ("192.0.2.10/32".data)).2).data.vals IpsetOpt.cidr =
        some (DVal.num 32) ∧
     ((ipset_parse_single_ip testResolver
      (emptySession.dataSet IpsetOpt.family (DVal.num AF_INET)) IpsetOpt.ip
      ("192.0.2.10".data)).2).data.flags IpsetOpt.cidr = false) ∧
    ((ipset_parse_single_ip testResolver
      (emptySession.dataSet IpsetOpt.family (DVal.num AF_INET6)) IpsetOpt.ip
      ("2001:db8::1/128".data)).1 = 0 ∧
     (ipset_parse_single_ip testResolver
      (emptySession.dataSet IpsetOpt.family (DVal.num AF_INET6)) IpsetOpt.ip
      ("2001:db8::1".data)).1 = 0 ∧
     ((ipset_parse_single_ip testResolver
      (emptySession.dataSet IpsetOpt.family (DVal.num AF_INET6)) IpsetOpt.ip
      ("2001:db8::1/128".data)).2).data.vals IpsetOpt.cidr =
        some (DVal.num 128) ∧
     ((ipset_parse_single_ip testResolver
      (emptySession.dataSet IpsetOpt.family (DVal.num AF_INET6)) IpsetOpt.ip
      ("2001:db8::1".data)).2).data.flags IpsetOpt.cidr = false) := by
  refine ⟨⟨rfl, rfl, rfl, rfl, rfl, rfl⟩, ⟨rfl, rfl, rfl, rfl⟩⟩

/-! ## C8: the setname,before|after,setname compатibility element -/

/-- C8: "myset,before,otherset" succeeds, storing name, nameref and the
before marker; "myset,sideways,otherset" fails with the bad-nameref
syntax error; and in general any string splitting into three fields whose
middle field is neither "before" nor "after", or into exactly two fields,
fails with that error. -/
theorem c8_theorem :
    (ipset_parse_name_compat emptySession IpsetOpt.name
      ("myset,before,otherset".data) =
      (0, ((emptySession.dataSet IpsetOpt.name
        (DVal.str ("myset".data))).dataSet IpsetOpt.nameref
        (DVal.str ("otherset".data))).dataSet IpsetOpt.before (DVal.num 1))) ∧
    ((ipset_parse_name_compat emptySession IpsetOpt.name
      ("myset,sideways,otherset".data)).1 = -1 ∧
     ((ipset_parse_name_compat emptySession IpsetOpt.name
      ("myset,sideways,otherset".data)).2).report = [Diag.nameRefBad]) ∧
    (∀ (sess : Session) (opt : IpsetOpt) (str x rest y z : List Char),
      elemSplit str = some (x, rest) → elemSplit rest = some (y, z) →
      y ≠ "before".data → y ≠ "after".data →
      (ipset_parse_name_compat sess opt str).1 = -1 ∧
      Diag.nameRefBad ∈ ((ipset_parse_name_compat sess opt str).2).report) ∧
    (∀ (sess : Session) (opt : IpsetOpt) (str x rest : List Char),
      elemSplit str = some (x, rest) → elemSplit rest = none →
      (ipset_parse_name_compat sess opt str).1 = -1 ∧
      Diag.nameRefBad ∈ ((ipset_parse_name_compat sess opt str).2).report) := by
  refine ⟨rfl, ⟨rfl, rfl⟩, ?_, ?_⟩
  · intro sess opt str x rest y z h1 h2 hb ha
    have hcond : ¬ (y = "before".data ∨ y = "after".data) := by
      rintro (h | h)
      · exact hb h
      · exact ha h
    unfold ipset_parse_name_compat
    simp only [h1, h2, if_pos hcond]
    exact ⟨trivial, List.mem_cons_self _ _⟩
  · intro sess opt str x rest h1 h2
    unfold ipset_parse_name_compat
    simp only [h1, h2]
    exact ⟨trivial, List.mem_cons_self _ _⟩

/-- C8 (witness): the general clauses of the theorem at "p,q,r" and
"p,q". -/
theorem c8_witness :
    (ipset_parse_name_compat emptySession IpsetOpt.name ("p,q,r".data)).1 =
      -1 ∧
    (ipset_parse_name_compat emptySession IpsetOpt.name ("p,q".data)).1 =
      -1 := by
  have h3 := c8_theorem.2.2.1 emptySession IpsetOpt.name ("p,q,r".data)
    ("p".data) ("q,r".data) ("q".data) ("r".data)
    (by decide) (by decide) (by decide) (by decide)
  have h2 := c8_theorem.2.2.2 emptySession IpsetOpt.name ("p,q".data)
    ("p".data) ("q".data) (by decide) (by decide)
  exact ⟨h3.1, h2.1⟩

/-! ## C9: the Ethernet address parser -/

/-- The two-character octet forms `strtol(.., 16)` accepts with exactly
two characters consumed and a value in 0..255, given that a separator or
the end of string follows: two hex digits, whitespace or a plus sign
followed by one hex digit, or minus-zero. -/
def octetOK2 (a b : Char) : Bool :=
  (isBaseDigit 16 a && isBaseDigit 16 b) ||
    ((isSpaceC a || decide (a = '+')) && isBaseDigit 16 b) ||
    (decide (a = '-') && decide (b = '0'))

/-- The acceptance set of `ipset_parse_ether`: length exactly 17, colons
at positions 2, 5, 8, 11, 14, and each two-character octet in the
`strtol`-lenient set. -/
def ethSpec (str : List Char) : Bool :=
  decide (str.length = 17) &&
    (List.range 6).all (fun i =>
      octetOK2 (str.getD (3 * i) ' ') (str.getD (3 * i + 1) ' ')) &&
    (List.range 5).all (fun i => decide (str.getD (3 * i + 2) ' ' = ':'))

theorem char_eq_of_toNat (a b : Char) (h : a.toNat = b.toNat) : a = b :=
  Char.ext (UInt32.ext h)

theorem digitVal_some_zero (b : Char) (hd : digitVal b = some 0) : b = '0' := by
  by_cases h1 : '0' ≤ b ∧ b ≤ '9'
  · have he : digitVal b = some (b.toNat - '0'.toNat) := by
      unfold digitVal
      rw [if_pos h1]
    rw [he] at hd
    injection hd with hd
    have hge : '0'.toNat ≤ b.toNat := h1.1
    exact char_eq_of_toNat b '0' (by omega)
  · exfalso
    unfold digitVal at hd
    rw [if_neg h1] at hd
    split_ifs at hd with h2 h3
    · injection hd with hd
      omega
    · injection hd with hd
      omega

theorem space_not_hex (c : Char) (h : isSpaceC c = true) :
    isBaseDigit 16 c = false := by
  by_contra hb
  have hb2 : isBaseDigit 16 c = true := by simpa using hb
  rw [isSpaceC_isBaseDigit_false 16 c hb2] at h
  exact Bool.noConfusion h

theorem not_hex_ne_zero (b : Char) (h : isBaseDigit 16 b = false) :
    b ≠ '0' := by
  rintro rfl
  rw [show isBaseDigit 16 '0' = true from by decide] at h
  exact Bool.noConfusion h

/-- The digit loop stops immediately on a non-digit head. -/
theorem parseDigits_stophead (base : Nat) (c : Char) (l : List Char)
    (acc : Nat) (hc : isBaseDigit base c = false) :
    parseDigits base (c :: l) acc = (acc, 0) := by
  simp [parseDigits, hc]

/-- `strtol16` on a two-character octet followed by a colon or the end of
string: the exactly-two-consumed, in-range check is equivalent to
`octetOK2`. -/
theorem strtol16_octet (a b : Char) (rest : List Char)
    (hrest : rest = [] ∨ rest.head? = some ':') :
    ((strtol16 (a :: b :: rest)).2 = 2 ∧ 0 ≤ (strtol16 (a :: b :: rest)).1 ∧
      (strtol16 (a :: b :: rest)).1 ≤ 255) ↔ octetOK2 a b = true := by
  have hrcases : rest = [] ∨ ∃ rr, rest = ':' :: rr := by
    rcases hrest with rfl | h
    · exact Or.inl rfl
    · right
      cases rest with
      | nil => exact absurd h (by simp)
      | cons r0 rr =>
        simp only [List.head?_cons, Option.some.injEq] at h
        exact ⟨rr, by rw [h]⟩
  have f1a : rest.takeWhile isSpaceC = [] := by
    rcases hrcases with rfl | ⟨rr, rfl⟩
    · rfl
    · simp [List.takeWhile_cons, show isSpaceC ':' = false from by decide]
  have f1b : rest.dropWhile isSpaceC = rest := by
    rcases hrcases with rfl | ⟨rr, rfl⟩
    · rfl
    · simp [List.dropWhile_cons, show isSpaceC ':' = false from by decide]
  have f2 : ∀ acc, parseDigits 16 rest acc = (acc, 0) := by
    rcases hrcases with rfl | ⟨rr, rfl⟩
    · intro acc
      rfl
    · intro acc
      exact parseDigits_stophead 16 ':' rr acc (by decide)
  have f3x : rest[0]? ≠ some 'x' := by
    rcases hrcases with rfl | ⟨rr, rfl⟩ <;> simp
  have f3X : rest[0]? ≠ some 'X' := by
    rcases hrcases with rfl | ⟨rr, rfl⟩ <;> simp
  have f4 : (rest[0]?.elim false (fun d => isBaseDigit 16 d)) = false := by
    rcases hrcases with rfl | ⟨rr, rfl⟩ <;> simp [isBaseDigit, digitVal]
  have f5m : rest.head? ≠ some '-' := by
    rcases hrcases with rfl | ⟨rr, rfl⟩ <;> simp
  have f5p : rest.head? ≠ some '+' := by
    rcases hrcases with rfl | ⟨rr, rfl⟩ <;> simp
  have f6 : rest[0]? ≠ some '0' := by
    rcases hrcases with rfl | ⟨rr, rfl⟩ <;> simp
  have hexPre_b : hexPrefixOK (b :: rest) = false := by
    by_cases hb0 : b = '0'
    · subst hb0
      simp [hexPrefixOK, f3x, f3X]
    · simp [hexPrefixOK, hb0]
  have hexPre_ab : hexPrefixOK (a :: b :: rest) = false := by
    by_cases ha0 : a = '0'
    · subst ha0
      by_cases hbx : b = 'x' ∨ b = 'X'
      · rcases hbx with rfl | rfl <;> simp [hexPrefixOK, f4]
      · push_neg at hbx
        simp [hexPrefixOK, hbx.1, hbx.2]
    · simp [hexPrefixOK, ha0]
  have hone : ∀ (c : Char) (d : Nat), digitVal c = some d → d < 16 →
      parseDigits 16 (c :: rest) 0 = (d, 1) := by
    intro c d hd hlt
    have hc : isBaseDigit 16 c = true := (isBaseDigit_true_iff 16 c).mpr ⟨d, hd, hlt⟩
    simp [parseDigits, hc, hd, f2]
  have htwo : ∀ (da db : Nat), digitVal a = some da → da < 16 →
      digitVal b = some db → db < 16 →
      parseDigits 16 (a :: b :: rest) 0 = (da * 16 + db, 2) := by
    intro da db hda hlta hdb hltb
    have hca : isBaseDigit 16 a = true := (isBaseDigit_true_iff 16 a).mpr ⟨da, hda, hlta⟩
    have hcb : isBaseDigit 16 b = true := (isBaseDigit_true_iff 16 b).mpr ⟨db, hdb, hltb⟩
    simp [parseDigits, hca, hcb, hda, hdb, f2]
  have honehead : ∀ (dv : Nat), digitVal a = some dv → dv < 16 →
      isBaseDigit 16 b = false → parseDigits 16 (a :: b :: rest) 0 = (dv, 1) := by
    intro dv hda hlt hb
    have hca : isBaseDigit 16 a = true := (isBaseDigit_true_iff 16 a).mpr ⟨dv, hda, hlt⟩
    simp [parseDigits, hca, hda, hb]
  have hpair : ∀ (v : Int) (n : Nat),
      (((v, n) : Int × Nat).2 = 2 ∧ 0 ≤ ((v, n) : Int × Nat).1 ∧
        ((v, n) : Int × Nat).1 ≤ 255) ↔ (n = 2 ∧ 0 ≤ v ∧ v ≤ 255) :=
    fun v n => Iff.rfl
  by_cases hsa : isSpaceC a = true
  · have hanothex := space_not_hex a hsa
    by_cases hsb : isSpaceC b = true
    · have hbnothex := space_not_hex b hsb
      have hb0 : b ≠ '0' := not_hex_ne_zero b hbnothex
      have hres : strtol16 (a :: b :: rest) = (0, 0) := by
        unfold strtol16
        simp [hsa, hsb, f1a, f1b, f5m, f5p, f6, f2, List.takeWhile_cons,
          List.dropWhile_cons, hexPrefixOK, f3x, f3X]
      rw [hres, hpair]
      simp [octetOK2, hanothex, hbnothex, hb0]
    · by_cases hbhex : isBaseDigit 16 b = true
      · obtain ⟨d, hd, hlt⟩ := (isBaseDigit_true_iff 16 b).mp hbhex
        have hbsign : b ≠ '-' ∧ b ≠ '+' :=
          ⟨ne_of_digitVal_none 16 b '-' hbhex (by decide),
           ne_of_digitVal_none 16 b '+' hbhex (by decide)⟩
        have hres : strtol16 (a :: b :: rest) = ((d : Int), 2) := by
          unfold strtol16
          simp only [List.takeWhile_cons, List.dropWhile_cons, hsa, hsb,
            if_true, if_false, Bool.false_eq_true]
          simp [hbsign.1, hbsign.2, hexPre_b, hone b d hd hlt]
          omega
        rw [hres, hpair]
        simp [octetOK2, hanothex, hsa, hbhex, show (0 : Int) ≤ (d : Int) from
          by omega, show ((d : Nat) : Int) ≤ 255 from by omega]
      · have hbhexf : isBaseDigit 16 b = false := by simpa using hbhex
        have hb0 : b ≠ '0' := not_hex_ne_zero b hbhexf
        have hres : strtol16 (a :: b :: rest) = (0, 0) := by
          by_cases hbm : b = '-'
          · subst hbm
            unfold strtol16
            simp [hsa, hsb, List.takeWhile_cons, List.dropWhile_cons, f6,
              f2, hexPrefixOK, f3x, f3X]
          · by_cases hbp : b = '+'
            · subst hbp
              unfold strtol16
              simp [hsa, hsb, List.takeWhile_cons, List.dropWhile_cons, f6,
                f2, hexPrefixOK, f3x, f3X]
            · unfold strtol16
              simp [hsa, hsb, List.takeWhile_cons, List.dropWhile_cons,
                hbm, hbp, hexPre_b, parseDigits_stophead 16 b rest 0 hbhexf]
        rw [hres, hpair]
        simp [octetOK2, hanothex, hbhexf, hb0]
  · by_cases ham : a = '-'
    · subst ham
      by_cases hbhex : isBaseDigit 16 b = true
      · obtain ⟨d, hd, hlt⟩ := (isBaseDigit_true_iff 16 b).mp hbhex
        have hbsign : b ≠ '-' ∧ b ≠ '+' :=
          ⟨ne_of_digitVal_none 16 b '-' hbhex (by decide),
           ne_of_digitVal_none 16 b '+' hbhex (by decide)⟩
        have hres : strtol16 ('-' :: b :: rest) = (-(d : Int), 2) := by
          unfold strtol16
          simp [List.takeWhile_cons, List.dropWhile_cons,
            show isSpaceC '-' = false from by decide, hexPre_b,
            hone b d hd hlt]
          omega
        rw [hres, hpair]
        constructor
        · rintro ⟨-, hge, -⟩
          have hd0 : d = 0 := by omega
          rw [hd0] at hd
          have hb2 := digitVal_some_zero b hd
          simp [octetOK2, hb2]
        · intro hok
          have hb2 : b = '0' := by
            simpa [octetOK2, show isBaseDigit 16 '-' = false from by decide,
              show isSpaceC '-' = false from by decide] using hok
          subst hb2
          rw [show digitVal '0' = some 0 from by decide] at hd
          have hd0 : d = 0 := by injection hd with h; omega
          subst hd0
          refine ⟨rfl, by omega, by omega⟩
      · have hbhexf : isBaseDigit 16 b = false := by simpa using hbhex
        have hb0 : b ≠ '0' := not_hex_ne_zero b hbhexf
        have hres : strtol16 ('-' :: b :: rest) = (0, 0) := by
          unfold strtol16
          simp [List.takeWhile_cons, List.dropWhile_cons,
            show isSpaceC '-' = false from by decide, hb0, hexPrefixOK,
            parseDigits_stophead 16 b rest 0 hbhexf]
        rw [hres, hpair]
        simp [octetOK2, hbhexf, hb0]
    · by_cases hap : a = '+'
      · subst hap
        by_cases hbhex : isBaseDigit 16 b = true
        · obtain ⟨d, hd, hlt⟩ := (isBaseDigit_true_iff 16 b).mp hbhex
          have hbsign : b ≠ '-' ∧ b ≠ '+' :=
            ⟨ne_of_digitVal_none 16 b '-' hbhex (by decide),
             ne_of_digitVal_none 16 b '+' hbhex (by decide)⟩
          have hres : strtol16 ('+' :: b :: rest) = ((d : Int), 2) := by
            unfold strtol16
            simp [List.takeWhile_cons, List.dropWhile_cons,
              show isSpaceC '+' = false from by decide, hexPre_b,
              hone b d hd hlt]
            omega
          rw [hres, hpair]
          simp [octetOK2, hbhex, show (0 : Int) ≤ (d : Int) from by omega,
            show ((d : Nat) : Int) ≤ 255 from by omega]
        · have hbhexf : isBaseDigit 16 b = false := by simpa using hbhex
          have hb0 : b ≠ '0' := not_hex_ne_zero b hbhexf
          have hres : strtol16 ('+' :: b :: rest) = (0, 0) := by
            unfold strtol16
            simp [List.takeWhile_cons, List.dropWhile_cons,
              show isSpaceC '+' = false from by decide, hb0, hexPrefixOK,
              parseDigits_stophead 16 b rest 0 hbhexf]
          rw [hres, hpair]
          simp [octetOK2, hbhexf, hb0, show isBaseDigit 16 '+' = false from
            by decide]
      · by_cases hahex : isBaseDigit 16 a = true
        · obtain ⟨da, hda, hlta⟩ := (isBaseDigit_true_iff 16 a).mp hahex
          by_cases hbhex : isBaseDigit 16 b = true
          · obtain ⟨db, hdb, hltb⟩ := (isBaseDigit_true_iff 16 b).mp hbhex
            have hres : strtol16 (a :: b :: rest) =
                (((da * 16 + db : Nat) : Int), 2) := by
              unfold strtol16
              simp [hsa, List.takeWhile_cons, List.dropWhile_cons, ham, hap,
                hexPre_ab, htwo da db hda hlta hdb hltb]
              omega
            rw [hres, hpair]
            simp only [octetOK2, hahex, hbhex, Bool.true_and, Bool.true_or,
              iff_true]
            refine ⟨trivial, by omega, by push_cast; omega⟩
          · have hbhexf : isBaseDigit 16 b = false := by simpa using hbhex
            have hres : strtol16 (a :: b :: rest) =
                (((da : Nat) : Int), 1) := by
              unfold strtol16
              simp [hsa, List.takeWhile_cons, List.dropWhile_cons, ham, hap,
                hexPre_ab, honehead da hda hlta hbhexf]
              omega
            rw [hres, hpair]
            have hb0 : b ≠ '0' := not_hex_ne_zero b hbhexf
            simp [octetOK2, hbhexf, hb0,
              isSpaceC_isBaseDigit_false 16 a hahex,
              ne_of_digitVal_none 16 a '+' hahex (by decide),
              ne_of_digitVal_none 16 a '-' hahex (by decide)]
        · have hahexf : isBaseDigit 16 a = false := by simpa using hahex
          have ha0 : a ≠ '0' := not_hex_ne_zero a hahexf
          have hres : strtol16 (a :: b :: rest) = (0, 0) := by
            unfold strtol16
            simp [hsa, List.takeWhile_cons, List.dropWhile_cons, ham, hap,
              ha0, hexPrefixOK, parseDigits_stophead 16 a (b :: rest) 0 hahexf]
          rw [hres, hpair]
          simp [octetOK2, hahexf, hsa, ham, hap]

/-- One iteration of the Ethernet octet loop succeeds iff its octet check
holds and the remaining iterations succeed. -/
theorem ethGo_isSome_succ (str : List Char) (i k : Nat) :
    (ethGo str i (k + 1)).isSome = true ↔
      ((strtol16 (str.drop (i * 3))).2 = 2 ∧
        (((str.drop (i * 3)).drop 2).head? = some ':' ∨
          (str.drop (i * 3)).drop 2 = []) ∧
        0 ≤ (strtol16 (str.drop (i * 3))).1 ∧
        (strtol16 (str.drop (i * 3))).1 ≤ 255) ∧
      (ethGo str (i + 1) k).isSome = true := by
  simp only [ethGo]
  split_ifs with h
  · simp only [h, true_and]
    cases ethGo str (i + 1) k <;> simp
  · exact iff_of_false (by simp) (fun hc => h hc.1)

/-- No iterations remaining: the loop trivially succeeds. -/
theorem ethGo_isSome_zero (str : List Char) (i : Nat) :
    (ethGo str i 0).isSome = true := rfl

/-- An interior octet check (a `:`-headed remainder follows): it holds iff
the third character is the colon and the two octet characters pass
`octetOK2`. -/
theorem octet_block (a b c : Char) (rest : List Char) :
    ((strtol16 (a :: b :: c :: rest)).2 = 2 ∧
      ((c :: rest).head? = some ':' ∨ c :: rest = ([] : List Char)) ∧
      0 ≤ (strtol16 (a :: b :: c :: rest)).1 ∧
      (strtol16 (a :: b :: c :: rest)).1 ≤ 255)
    ↔ (c = ':' ∧ octetOK2 a b = true) := by
  by_cases hc : c = ':'
  · subst hc
    constructor
    · rintro ⟨h2, -, hge, hle⟩
      exact ⟨rfl, (strtol16_octet a b (':' :: rest) (Or.inr rfl)).mp ⟨h2, hge, hle⟩⟩
    · rintro ⟨-, hok⟩
      obtain ⟨h2, hge, hle⟩ := (strtol16_octet a b (':' :: rest) (Or.inr rfl)).mpr hok
      exact ⟨h2, Or.inl rfl, hge, hle⟩
  · constructor
    · rintro ⟨-, hsep, -⟩
      rcases hsep with hh | hn
      · exact absurd (by simpa using hh) hc
      · exact absurd hn (by simp)
    · rintro ⟨hcc, -⟩
      exact absurd hcc hc

/-- The final octet check (end of string follows): it holds iff the two
octet characters pass `octetOK2`. -/
theorem octet_blockEnd (a b : Char) :
    ((strtol16 [a, b]).2 = 2 ∧
      0 ≤ (strtol16 [a, b]).1 ∧ (strtol16 [a, b]).1 ≤ 255)
    ↔ octetOK2 a b = true :=
  strtol16_octet a b [] (Or.inl rfl)

/-- A character list of length 17 is a seventeen-tuple. -/
theorem exists_seventeen (l : List Char) (h : l.length = 17) :
    ∃ d0 d1 d2 d3 d4 d5 d6 d7 d8 d9 d10 d11 d12 d13 d14 d15 d16 : Char,
      l = [d0, d1, d2, d3, d4, d5, d6, d7, d8, d9, d10, d11, d12, d13, d14, d15, d16] := by
  obtain ⟨d0, t0, rfl⟩ := List.exists_of_length_succ l (show l.length = 16 + 1 by omega)
  have h0 : t0.length = 16 := by simp only [List.length_cons] at h; omega
  obtain ⟨d1, t1, rfl⟩ := List.exists_of_length_succ t0 (show t0.length = 15 + 1 by omega)
  have h1 : t1.length = 15 := by simp only [List.length_cons] at h0; omega
  obtain ⟨d2, t2, rfl⟩ := List.exists_of_length_succ t1 (show t1.length = 14 + 1 by omega)
  have h2 : t2.length = 14 := by simp only [List.length_cons] at h1; omega
  obtain ⟨d3, t3, rfl⟩ := List.exists_of_length_succ t2 (show t2.length = 13 + 1 by omega)
  have h3 : t3.length = 13 := by simp only [List.length_cons] at h2; omega
  obtain ⟨d4, t4, rfl⟩ := List.exists_of_length_succ t3 (show t3.length = 12 + 1 by omega)
  have h4 : t4.length = 12 := by simp only [List.length_cons] at h3; omega
  obtain ⟨d5, t5, rfl⟩ := List.exists_of_length_succ t4 (show t4.length = 11 + 1 by omega)
  have h5 : t5.length = 11 := by simp only [List.length_cons] at h4; omega
  obtain ⟨d6, t6, rfl⟩ := List.exists_of_length_succ t5 (show t5.length = 10 + 1 by omega)
  have h6 : t6.length = 10 := by simp only [List.length_cons] at h5; omega
  obtain ⟨d7, t7, rfl⟩ := List.exists_of_length_succ t6 (show t6.length = 9 + 1 by omega)
  have h7 : t7.length = 9 := by simp only [List.length_cons] at h6; omega
  obtain ⟨d8, t8, rfl⟩ := List.exists_of_length_succ t7 (show t7.length = 8 + 1 by omega)
  have h8 : t8.length = 8 := by simp only [List.length_cons] at h7; omega
  obtain ⟨d9, t9, rfl⟩ := List.exists_of_length_succ t8 (show t8.length = 7 + 1 by omega)
  have h9 : t9.length = 7 := by simp only [List.length_cons] at h8; omega
  obtain ⟨d10, t10, rfl⟩ := List.exists_of_length_succ t9 (show t9.length = 6 + 1 by omega)
  have h10 : t10.length = 6 := by simp only [List.length_cons] at h9; omega
  obtain ⟨d11, t11, rfl⟩ := List.exists_of_length_succ t10 (show t10.length = 5 + 1 by omega)
  have h11 : t11.length = 5 := by simp only [List.length_cons] at h10; omega
  obtain ⟨d12, t12, rfl⟩ := List.exists_of_length_succ t11 (show t11.length = 4 + 1 by omega)
  have h12 : t12.length = 4 := by simp only [List.length_cons] at h11; omega
  obtain ⟨d13, t13, rfl⟩ := List.exists_of_length_succ t12 (show t12.length = 3 + 1 by omega)
  have h13 : t13.length = 3 := by simp only [List.length_cons] at h12; omega
  obtain ⟨d14, t14, rfl⟩ := List.exists_of_length_succ t13 (show t13.length = 2 + 1 by omega)
  have h14 : t14.length = 2 := by simp only [List.length_cons] at h13; omega
  obtain ⟨d15, t15, rfl⟩ := List.exists_of_length_succ t14 (show t14.length = 1 + 1 by omega)
  have h15 : t15.length = 1 := by simp only [List.length_cons] at h14; omega
  obtain ⟨d16, t16, rfl⟩ := List.exists_of_length_succ t15 (show t15.length = 0 + 1 by omega)
  have h16 : t16.length = 0 := by simp only [List.length_cons] at h15; omega
  have ht : t16 = [] := List.eq_nil_of_length_eq_zero h16
  subst ht
  exact ⟨d0, d1, d2, d3, d4, d5, d6, d7, d8, d9, d10, d11, d12, d13, d14, d15, d16, rfl⟩

/-- On a seventeen-character string the octet loop succeeds iff the colons
sit at positions 2, 5, 8, 11, 14 and each octet passes `octetOK2`. -/
theorem ethGo17 (d0 d1 d2 d3 d4 d5 d6 d7 d8 d9 d10 d11 d12 d13 d14 d15 d16 : Char) :
    (ethGo [d0, d1, d2, d3, d4, d5, d6, d7, d8, d9, d10, d11, d12, d13, d14, d15, d16] 0 6).isSome = true ↔
      ((d2 = ':' ∧ octetOK2 d0 d1 = true) ∧
       (d5 = ':' ∧ octetOK2 d3 d4 = true) ∧
       (d8 = ':' ∧ octetOK2 d6 d7 = true) ∧
       (d11 = ':' ∧ octetOK2 d9 d10 = true) ∧
       (d14 = ':' ∧ octetOK2 d12 d13 = true) ∧
       octetOK2 d15 d16 = true) := by
  simp only [ethGo_isSome_succ, ethGo_isSome_zero, and_true]
  norm_num only [List.drop_succ_cons, List.drop_zero]
  simp only [or_true, true_and]
  rw [octet_block, octet_block, octet_block, octet_block, octet_block,
    octet_blockEnd]

/-- `ethSpec` on a seventeen-character string, unfolded. -/
theorem ethSpec17 (d0 d1 d2 d3 d4 d5 d6 d7 d8 d9 d10 d11 d12 d13 d14 d15 d16 : Char) :
    ethSpec [d0, d1, d2, d3, d4, d5, d6, d7, d8, d9, d10, d11, d12, d13, d14, d15, d16] = true ↔
      ((d2 = ':' ∧ octetOK2 d0 d1 = true) ∧
       (d5 = ':' ∧ octetOK2 d3 d4 = true) ∧
       (d8 = ':' ∧ octetOK2 d6 d7 = true) ∧
       (d11 = ':' ∧ octetOK2 d9 d10 = true) ∧
       (d14 = ':' ∧ octetOK2 d12 d13 = true) ∧
       octetOK2 d15 d16 = true) := by
  simp [ethSpec, List.range, List.range.loop, Bool.and_eq_true,
    decide_eq_true_iff]
  tauto

/-- C9 (amended): `ipset_parse_ether` succeeds exactly on the strings in
`ethSpec` — length 17, colons at positions 2, 5, 8, 11, 14, and each
two-character octet in the `strtol`-lenient set `octetOK2` (two hex digits,
or whitespace/a plus sign followed by one hex digit, or minus-zero) — in
which case the six bytes are stored under the option; on every other
string it returns -1 with the not-an-ether-address diagnostic and the
store untouched. -/
theorem c9_amended (s : Session) (opt : IpsetOpt) (str : List Char) :
    ((ipset_parse_ether s opt str).1 = 0 ↔ ethSpec str = true) ∧
    (ethSpec str = true →
      ∃ bs, ipset_parse_ether s opt str = (0, s.dataSet opt (DVal.etherV bs))) ∧
    (ethSpec str = false →
      ipset_parse_ether s opt str = (-1, s.record Diag.etherBad)) := by
  by_cases hlen : str.length = 17
  · obtain ⟨d0, d1, d2, d3, d4, d5, d6, d7, d8, d9, d10, d11, d12, d13, d14, d15, d16, rfl⟩ := exists_seventeen str hlen
    by_cases hE : ethSpec [d0, d1, d2, d3, d4, d5, d6, d7, d8, d9, d10, d11, d12, d13, d14, d15, d16] = true
    · have hsome : (ethGo [d0, d1, d2, d3, d4, d5, d6, d7, d8, d9, d10, d11, d12, d13, d14, d15, d16] 0 6).isSome = true :=
        (ethGo17 d0 d1 d2 d3 d4 d5 d6 d7 d8 d9 d10 d11 d12 d13 d14 d15 d16).mpr ((ethSpec17 d0 d1 d2 d3 d4 d5 d6 d7 d8 d9 d10 d11 d12 d13 d14 d15 d16).mp hE)
      obtain ⟨bs, hbs⟩ := Option.isSome_iff_exists.mp hsome
      have hpe : ipset_parse_ether s opt [d0, d1, d2, d3, d4, d5, d6, d7, d8, d9, d10, d11, d12, d13, d14, d15, d16] =
          (0, s.dataSet opt (DVal.etherV bs)) := by
        unfold ipset_parse_ether
        rw [if_neg (not_not_intro hlen), hbs]
      refine ⟨?_, fun _ => ⟨bs, hpe⟩, fun hf => absurd hE (by simp [hf])⟩
      rw [hpe]
      simpa using hE
    · have hEf : ethSpec [d0, d1, d2, d3, d4, d5, d6, d7, d8, d9, d10, d11, d12, d13, d14, d15, d16] = false := by simpa using hE
      have hnone : ethGo [d0, d1, d2, d3, d4, d5, d6, d7, d8, d9, d10, d11, d12, d13, d14, d15, d16] 0 6 = none := by
        cases hgo : ethGo [d0, d1, d2, d3, d4, d5, d6, d7, d8, d9, d10, d11, d12, d13, d14, d15, d16] 0 6 with
        | none => rfl
        | some bs =>
          exfalso
          have hs : (ethGo [d0, d1, d2, d3, d4, d5, d6, d7, d8, d9, d10, d11, d12, d13, d14, d15, d16] 0 6).isSome = true := by rw [hgo]; rfl
          exact hE ((ethSpec17 d0 d1 d2 d3 d4 d5 d6 d7 d8 d9 d10 d11 d12 d13 d14 d15 d16).mpr ((ethGo17 d0 d1 d2 d3 d4 d5 d6 d7 d8 d9 d10 d11 d12 d13 d14 d15 d16).mp hs))
      have hpe : ipset_parse_ether s opt [d0, d1, d2, d3, d4, d5, d6, d7, d8, d9, d10, d11, d12, d13, d14, d15, d16] =
          (-1, s.record Diag.etherBad) := by
        unfold ipset_parse_ether
        rw [if_neg (not_not_intro hlen), hnone]
        rfl
      refine ⟨?_, fun ht => absurd ht hE, fun _ => hpe⟩
      rw [hpe, hEf]
      simp
  · have hEf : ethSpec str = false := by simp [ethSpec, hlen]
    have hpe : ipset_parse_ether s opt str = (-1, s.record Diag.etherBad) := by
      unfold ipset_parse_ether
      rw [if_pos hlen]
      rfl
    refine ⟨?_, fun ht => absurd ht (by simp [hEf]), fun _ => hpe⟩
    rw [hpe, hEf]
    simp

/-- C9 witness: "00:11:22:aa:BB:cf" is accepted and stores six bytes;
"00:11:22:aa:BB:c" (length 16) is rejected with the ether diagnostic. -/
theorem c9_witness :
    (∃ bs, ipset_parse_ether emptySession IpsetOpt.ether
      ("00:11:22:aa:BB:cf".data) =
        (0, emptySession.dataSet IpsetOpt.ether (DVal.etherV bs))) ∧
    ipset_parse_ether emptySession IpsetOpt.ether ("00:11:22:aa:BB:c".data) =
      (-1, emptySession.record Diag.etherBad) :=
  ⟨(c9_amended emptySession IpsetOpt.ether ("00:11:22:aa:BB:cf".data)).2.1
      (by decide),
   (c9_amended emptySession IpsetOpt.ether ("00:11:22:aa:BB:c".data)).2.2
      (by decide)⟩

/-- C9 counterexample: "+1:11:22:aa:bb:cf" is not six two-hex-digit
octets — its first character is a plus sign, not a hexadecimal digit —
yet the parser accepts it (returns 0), because `strtol` tolerates
whitespace and a sign before each octet. -/
theorem c9_counterexample :
    (ipset_parse_ether emptySession IpsetOpt.ether
      ("+1:11:22:aa:bb:cf".data)).1 = 0 ∧
    ("+1:11:22:aa:bb:cf".data).getD 0 ' ' = '+' ∧
    isBaseDigit 16 '+' = false := by
  refine ⟨by decide, by decide, by decide⟩

/-! ## C3: dimension enforcement in the element dispatcher -/

/-- C3 (amended): with the active type descriptor `ty`, the element
dispatcher enforces its dimension against the code's own separator
splitting as follows.  Too many parts: a second interior separator with
dimension 2 fails with the one-separator diagnostic; a third interior
separator with dimension above 2 fails with the two-separator diagnostic;
any separator with dimension 1 and no compat parser fails with the
no-separator diagnostic — but with a compat parser the dispatcher
delegates the whole string to it instead of rejecting.  Too few parts
(when not optional): no separator with dimension above 1 fails with the
second-element-missing diagnostic; exactly one separator with dimension
above 2 fails with the third-element-missing diagnostic. -/
theorem c3_amended (R : Resolver) (s : Session) (ty : IpsetType)
    (optional : Bool) (str : List Char) (hty : s.typeOf = some ty) :
    (∀ t1 rest t2 rest2, elemSplit str = some (t1, rest) →
      elemSplit rest = some (t2, rest2) → ty.dimension = 2 →
      ipset_parse_elem R s optional str =
        (-1, s.record Diag.oneSepSupported)) ∧
    (∀ t1 rest t2 rest2, elemSplit str = some (t1, rest) →
      elemSplit rest = some (t2, rest2) → ty.dimension > 2 →
      (ipset_strchr rest2 elemSepChars).isSome →
      ipset_parse_elem R s optional str =
        (-1, s.record Diag.twoSepsSupported)) ∧
    (∀ t1 rest, elemSplit str = some (t1, rest) → ty.dimension = 1 →
      ty.compat = none →
      ipset_parse_elem R s optional str =
        (-1, s.record Diag.elemSepUnsupported)) ∧
    (∀ t1 rest cp, elemSplit str = some (t1, rest) → ty.dimension = 1 →
      ty.compat = some cp →
      ipset_parse_elem R s optional str =
        applyParseFn R cp s ty.elem1.opt str) ∧
    (elemSplit str = none → ty.dimension > 1 → optional = false →
      ipset_parse_elem R s optional str =
        (-1, s.record Diag.secondElemMissing)) ∧
    (∀ t1 rest, elemSplit str = some (t1, rest) → elemSplit rest = none →
      ty.dimension > 2 → optional = false →
      ipset_parse_elem R s optional str =
        (-1, s.record Diag.thirdElemMissing)) := by
  refine ⟨?_, ?_, ?_, ?_, ?_, ?_⟩
  · intro t1 rest t2 rest2 h1 h2 hdim
    have hgt : ty.dimension > 1 := by omega
    have hngt : ¬ ty.dimension > 2 := by omega
    simp [ipset_parse_elem, hty, h1, hgt, ipset_parse_elem_go,
      Option.some_bind, h2, hngt, synErr]
  · intro t1 rest t2 rest2 h1 h2 hdim hchr
    have hgt : ty.dimension > 1 := by omega
    simp [ipset_parse_elem, hty, h1, hgt, ipset_parse_elem_go,
      Option.some_bind, h2, hdim, hchr, synErr]
  · intro t1 rest h1 hdim hcompat
    have hngt : ¬ ty.dimension > 1 := by omega
    simp [ipset_parse_elem, hty, h1, hngt, hcompat, synErr]
  · intro t1 rest cp h1 hdim hcompat
    have hngt : ¬ ty.dimension > 1 := by omega
    simp [ipset_parse_elem, hty, h1, hngt, hcompat]
  · intro h1 hgt hopt
    simp [ipset_parse_elem, hty, h1, hgt, hopt, synErr]
  · intro t1 rest h1 h2 hgt2 hopt
    have hgt : ty.dimension > 1 := by omega
    simp [ipset_parse_elem, hty, h1, hgt, ipset_parse_elem_go,
      Option.some_bind, h2, hgt2, hopt, synErr]

/-- C3 witness: a dimension-2 descriptor rejects "a,b,c" with the
one-separator diagnostic and (not optional) rejects "a" with the
second-element-missing diagnostic. -/
theorem c3_witness :
    ipset_parse_elem nullResolver
        (emptySession.dataSet IpsetOpt.typeOpt (DVal.typeV
          { name := "hash:ip,port".data, dimension := 2,
            elem1 := { parseFn := some ParseFn.uint32Fn, opt := IpsetOpt.ip },
            elem2 := { parseFn := some ParseFn.uint32Fn, opt := IpsetOpt.port },
            elem3 := { parseFn := none, opt := IpsetOpt.ip2 },
            compat := none }))
        false ("a,b,c".data) =
      (-1, (emptySession.dataSet IpsetOpt.typeOpt (DVal.typeV
          { name := "hash:ip,port".data, dimension := 2,
            elem1 := { parseFn := some ParseFn.uint32Fn, opt := IpsetOpt.ip },
            elem2 := { parseFn := some ParseFn.uint32Fn, opt := IpsetOpt.port },
            elem3 := { parseFn := none, opt := IpsetOpt.ip2 },
            compat := none })).record Diag.oneSepSupported) ∧
    ipset_parse_elem nullResolver
        (emptySession.dataSet IpsetOpt.typeOpt (DVal.typeV
          { name := "hash:ip,port".data, dimension := 2,
            elem1 := { parseFn := some ParseFn.uint32Fn, opt := IpsetOpt.ip },
            elem2 := { parseFn := some ParseFn.uint32Fn, opt := IpsetOpt.port },
            elem3 := { parseFn := none, opt := IpsetOpt.ip2 },
            compat := none }))
        false ("a".data) =
      (-1, (emptySession.dataSet IpsetOpt.typeOpt (DVal.typeV
          { name := "hash:ip,port".data, dimension := 2,
            elem1 := { parseFn := some ParseFn.uint32Fn, opt := IpsetOpt.ip },
            elem2 := { parseFn := some ParseFn.uint32Fn, opt := IpsetOpt.port },
            elem3 := { parseFn := none, opt := IpsetOpt.ip2 },
            compat := none })).record Diag.secondElemMissing) :=
  ⟨(c3_amended nullResolver
      (emptySession.dataSet IpsetOpt.typeOpt (DVal.typeV
          { name := "hash:ip,port".data, dimension := 2,
            elem1 := { parseFn := some ParseFn.uint32Fn, opt := IpsetOpt.ip },
            elem2 := { parseFn := some ParseFn.uint32Fn, opt := IpsetOpt.port },
            elem3 := { parseFn := none, opt := IpsetOpt.ip2 },
            compat := none }))
      { name := "hash:ip,port".data, dimension := 2,
            elem1 := { parseFn := some ParseFn.uint32Fn, opt := IpsetOpt.ip },
            elem2 := { parseFn := some ParseFn.uint32Fn, opt := IpsetOpt.port },
            elem3 := { parseFn := none, opt := IpsetOpt.ip2 },
            compat := none }
      false ("a,b,c".data) rfl).1
      ("a".data) ("b,c".data) ("b".data) ("c".data)
      (by decide) (by decide) rfl,
   (c3_amended nullResolver
      (emptySession.dataSet IpsetOpt.typeOpt (DVal.typeV
          { name := "hash:ip,port".data, dimension := 2,
            elem1 := { parseFn := some ParseFn.uint32Fn, opt := IpsetOpt.ip },
            elem2 := { parseFn := some ParseFn.uint32Fn, opt := IpsetOpt.port },
            elem3 := { parseFn := none, opt := IpsetOpt.ip2 },
            compat := none }))
      { name := "hash:ip,port".data, dimension := 2,
            elem1 := { parseFn := some ParseFn.uint32Fn, opt := IpsetOpt.ip },
            elem2 := { parseFn := some ParseFn.uint32Fn, opt := IpsetOpt.port },
            elem3 := { parseFn := none, opt := IpsetOpt.ip2 },
            compat := none }
      false ("a".data) rfl).2.2.2.2.1
      (by decide) (by decide) rfl⟩

/-- C3 counterexample: a dimension-1 descriptor carrying a legacy compat
parser, given the three-part string "myset,before,otherset", does not
reject it: the dispatcher delegates the whole string to the compat parser,
which succeeds (returns 0), although the string has two interior element
separators — more parts than the dimension. -/
theorem c3_counterexample :
    (ipset_parse_elem nullResolver
        (emptySession.dataSet IpsetOpt.typeOpt (DVal.typeV
          { name := "list:set".data, dimension := 1,
            elem1 := { parseFn := some ParseFn.setnameFn,
                       opt := IpsetOpt.name },
            elem2 := { parseFn := none, opt := IpsetOpt.ip },
            elem3 := { parseFn := none, opt := IpsetOpt.ip },
            compat := some ParseFn.nameCompatFn }))
        false ("myset,before,otherset".data)).1 = 0 ∧
    ((elemSplit ("myset,before,otherset".data)).bind
      (fun p => elemSplit p.2)).isSome = true := by
  refine ⟨by decide, by decide⟩

